import Mathlib

/-!
Vote widget of ImageShareWeb (`static/js/vote.js`)

A shallow embedding of the `DOMContentLoaded` handler of `static/js/vote.js`:
the discovery loop over `.image-item` elements, the click listener attached to
each vote button, and the promise chain that applies the server's answer.

Modelling scope.
* The document is a sequence of blocks in document order.  A block is either an
  `.image-item` element with its descendant elements, or a run of elements
  outside every image item.  Image items are not nested in one another, and the
  root element of a block carries no `id`.
* An element is described by the attributes and properties the script reads or
  writes: `id`, `classList`, `data-vote-type` and `textContent`.  The text of an
  element is its own; element children of a count display are not modelled.
* The value delivered by `response.json()` is described by the three property
  reads the script performs on it.  A number is either a safe integer (magnitude
  at most 2^53 - 1), whose rendering is its decimal numeral, or any other number
  (fractional, larger, or infinite), which is carried with its rendering.
-/

namespace VoteWidget

/-! ## JavaScript values -/

/-- The safe integers of JavaScript: the integers of magnitude at most
`Number.MAX_SAFE_INTEGER` = 2^53 - 1.  Each is a Number value, and `Number::toString`
renders it as its decimal numeral. -/
abbrev SafeInt := { n : Int // n.natAbs ≤ 9007199254740991 }

/-- A value obtained by reading a property of a parsed JSON body.  `undefined` is the
result of reading an absent property.  `num` is a number that is a safe integer (both
zeros are the integer 0).  `inexact` is any other number a JSON text parses to (fractional,
of magnitude 2^53 or more, or infinite): it is not zero, and it is carried with its
`Number::toString` rendering.  `object` stands for an array or object and carries its
`ToString` rendering. -/
inductive JsVal where
  | undefined
  | null
  | bool (b : Bool)
  | num (n : SafeInt)
  | inexact (rendering : String)
  | str (s : String)
  | object (rendering : String)
  deriving DecidableEq, Repr

/-- The `ToBoolean` conversion used by `if (data.success)`. -/
def JsVal.truthy : JsVal → Bool
  | .undefined => false
  | .null => false
  | .bool b => b
  | .num n => n.val != 0
  | .inexact _ => true
  | .str s => s != ""
  | .object _ => true

/-- The string stored by `node.textContent = v`.  `textContent` is a nullable `DOMString`:
`null` and `undefined` convert to the null value, which the setter treats as the empty
string; every other value is converted with `ToString`. -/
def JsVal.toTextContent : JsVal → String
  | .undefined => ""
  | .null => ""
  | .bool true => "true"
  | .bool false => "false"
  | .num n => toString n.val
  | .inexact r => r
  | .str s => s
  | .object r => r

/-- The rendering of an attribute value inside a template literal: `getAttribute` yields
`null` for an absent attribute, which interpolates as the text `null`. -/
def interpolate : Option String → String
  | none => "null"
  | some s => s

/-- The property reads `data.success`, `data.new_vote_count` and `data.user_vote` on a
parsed body that is not `null`. -/
structure VoteData where
  success : JsVal
  new_vote_count : JsVal
  user_vote : JsVal
  deriving DecidableEq, Repr

/-! ## Document -/

/-- An element, by the attributes and properties the script touches. -/
structure Elem where
  id : Option String
  classList : List String
  voteType : Option String
  textContent : String
  deriving DecidableEq, Repr

/-- The token list after `classList.add(tok)`. -/
def classListAdd (tok : String) (l : List String) : List String :=
  if l.contains tok then l else l ++ [tok]

/-- The token list after `classList.remove(tok)`. -/
def classListRemove (tok : String) (l : List String) : List String :=
  l.filter (fun t => t != tok)

/-- Effect of `e.classList.add(tok)`. -/
def Elem.addClass (tok : String) (e : Elem) : Elem :=
  { e with classList := classListAdd tok e.classList }

/-- Effect of `e.classList.remove(tok)`. -/
def Elem.removeClass (tok : String) (e : Elem) : Elem :=
  { e with classList := classListRemove tok e.classList }

/-- Effect of `e.textContent = v`. -/
def Elem.setTextContent (v : JsVal) (e : Elem) : Elem :=
  { e with textContent := v.toTextContent }

/-- A block of the document: an `.image-item` element (`isImageItem`) with its
`data-image-id` and `data-user-vote` attributes and its descendants in tree order, or a
run of elements outside every image item. -/
structure Block where
  isImageItem : Bool
  imageId : Option String
  userVote : Option String
  inner : List Elem
  deriving DecidableEq, Repr

/-- The document: its blocks in document order. -/
abbrev Doc := List Block

/-- A reference to an element: the index of its block and its index inside the block. -/
abbrev Handle := Nat × Nat

/-- Apply `f` to the `n`-th entry of a list. -/
def modifyAt {α : Type} (f : α → α) : Nat → List α → List α
  | _, [] => []
  | 0, a :: l => f a :: l
  | n + 1, a :: l => a :: modifyAt f n l

/-- The element a handle refers to. -/
def Doc.elemAt (d : Doc) (h : Handle) : Option Elem :=
  match d[h.1]? with
  | some b => b.inner[h.2]?
  | none => none

/-- Mutate the element a handle refers to. -/
def Doc.update (d : Doc) (h : Handle) (f : Elem → Elem) : Doc :=
  modifyAt (fun b => { b with inner := modifyAt f h.2 b.inner }) h.1 d

/-- Index of the first entry satisfying `p`. -/
def firstIdx {α : Type} (p : α → Bool) : List α → Option Nat
  | [] => none
  | a :: l => if p a then some 0 else (firstIdx p l).map (fun j => j + 1)

/-- Whether an element matches the selector `.vote-btn[data-vote-type="<voteType>"]`. -/
def matchesVoteBtn (voteType : String) (e : Elem) : Bool :=
  e.classList.contains "vote-btn" && e.voteType == some voteType

/-- The call `image.querySelector(.vote-btn[data-vote-type="<voteType>"])` for the image
item at block `i`: the first matching descendant. -/
def querySelectorVoteBtn (d : Doc) (i : Nat) (voteType : String) : Option Handle :=
  match d[i]? with
  | some image => (firstIdx (matchesVoteBtn voteType) image.inner).map (fun j => (i, j))
  | none => none

/-- Search of the blocks from block number `k` on for the first element with the id. -/
def findById (id : String) : List Block → Nat → Option Handle
  | [], _ => none
  | b :: bs, k =>
    match firstIdx (fun e => e.id == some id) b.inner with
    | some j => some (k, j)
    | none => findById id bs (k + 1)

/-- The call `document.getElementById(id)`: the first element in document order. -/
def getElementById (d : Doc) (id : String) : Option Handle :=
  findById id d 0

/-! ## Controllers, requests and the page state -/

/-- The variables captured by the listeners of one image item. -/
structure Controller where
  imageId : Option String
  upvoteButton : Handle
  downvoteButton : Handle
  voteCount : Handle
  deriving DecidableEq, Repr

/-- A call of `fetch`. -/
structure Request where
  url : String
  method : String
  headers : List (String × String)
  deriving DecidableEq, Repr

/-- The page: the document, the registered click listeners in registration order, the
requests issued so far and the lines written with `console.error`. -/
structure State where
  doc : Doc
  listeners : List (Handle × Controller)
  sent : List Request
  console : List String
  deriving DecidableEq, Repr

/-- The element lookup and the guard of one `forEach` iteration (lines 10 to 18) for the
image item at block `i`: the captured variables, or `none` when the iteration returns at
the guard because one of the three elements is missing. -/
def controllerFor (d : Doc) (i : Nat) : Option Controller :=
  match d[i]? with
  | none => none
  | some image =>
    let imageId := image.imageId
    match querySelectorVoteBtn d i "upvote", querySelectorVoteBtn d i "downvote",
        getElementById d ("vote-count-" ++ interpolate imageId) with
    | some upvoteButton, some downvoteButton, some voteCount =>
      some ⟨imageId, upvoteButton, downvoteButton, voteCount⟩
    | _, _, _ => none

/-- The saved vote style of one `forEach` iteration (lines 20 to 25). -/
def applySavedVote (userVote : Option String) (c : Controller) (doc : Doc) : Doc :=
  if userVote = some "upvote" then doc.update c.upvoteButton (Elem.addClass "upvoted")
  else if userVote = some "downvote" then doc.update c.downvoteButton (Elem.addClass "downvoted")
  else doc

/-- The body of the `forEach` callback for the image item at block `i` (lines 10 to 60):
element lookup, the guard, the saved vote style, and one click listener on each of the two
buttons. -/
def discoverItem (i : Nat) (st : State) : State :=
  match st.doc[i]?, controllerFor st.doc i with
  | some image, some c =>
    { st with
      doc := applySavedVote image.userVote c st.doc
      listeners := st.listeners ++ [(c.upvoteButton, c), (c.downvoteButton, c)] }
  | _, _ => st

/-- The node list of `document.querySelectorAll(".image-item")`, as block indices. -/
def imageItems (d : Doc) : List Nat :=
  (List.range d.length).filter (fun i => match d[i]? with
    | some b => b.isImageItem
    | none => false)

/-- The `DOMContentLoaded` handler run on a freshly parsed page. -/
def discover (page : Doc) : State :=
  (imageItems page).foldl (fun st i => discoverItem i st) ⟨page, [], [], []⟩

/-- The request built by the click listener. -/
def voteRequest (imageId voteType : Option String) : Request :=
  { url := "/vote/" ++ interpolate imageId ++ "/" ++ interpolate voteType
    method := "POST"
    headers := [("Content-Type", "application/json"), ("X-Requested-With", "XMLHttpRequest")] }

/-- The synchronous part of the click listener of controller `c` run with `this = self`:
it reads `data-vote-type` of the clicked button and calls `fetch`. -/
def onClick (c : Controller) (self : Handle) (st : State) : State :=
  let voteType := (st.doc.elemAt self).bind (fun e => e.voteType)
  { st with sent := st.sent ++ [voteRequest c.imageId voteType] }

/-- How a callback ends: it returns, or it throws. -/
inductive Completion (α : Type) where
  | normal (value : α)
  | throw (reason : String)
  deriving DecidableEq, Repr

/-- The branch taken when `data.success` is truthy (lines 43 to 55): the count text is
overwritten, both marks are removed, and the mark named by `data.user_vote` is added. -/
def applySuccess (c : Controller) (data : VoteData) (doc : Doc) : Doc :=
  let doc1 := doc.update c.voteCount (Elem.setTextContent data.new_vote_count)
  let doc2 := doc1.update c.upvoteButton (Elem.removeClass "upvoted")
  let doc3 := doc2.update c.downvoteButton (Elem.removeClass "downvoted")
  if data.user_vote = .str "upvote" then
    doc3.update c.upvoteButton (Elem.addClass "upvoted")
  else if data.user_vote = .str "downvote" then
    doc3.update c.downvoteButton (Elem.addClass "downvoted")
  else doc3

/-- The callback `data => ...` (lines 41 to 57).  `none` is the parsed body `null`, on
which the property read `data.success` throws. -/
def responseCallback (c : Controller) (data : Option VoteData) (doc : Doc) : Completion Doc :=
  match data with
  | none => .throw "TypeError: Cannot read properties of null (reading success)"
  | some data =>
    if data.success.truthy then .normal (applySuccess c data doc)
    else .normal doc

/-- A settled promise. -/
inductive Settled (α : Type) where
  | fulfilled (value : α)
  | rejected (reason : String)
  deriving DecidableEq, Repr

/-- The response object `fetch` fulfils with, by the outcome of `response.json()`. -/
structure Response where
  json : Settled (Option VoteData)
  deriving DecidableEq, Repr

/-- The promise `p.then(f)` for a callback that returns a promise. -/
def Settled.thenAdopt {α β : Type} (p : Settled α) (f : α → Settled β) : Settled β :=
  match p with
  | .fulfilled a => f a
  | .rejected e => .rejected e

/-- The promise `p.then(f)` for a callback that acts on the document, with the document
after it has settled.  A callback that throws is taken to have written nothing: the only
throw of the script, the read of `data.success` on `null`, precedes every write. -/
def Settled.thenRun {α : Type} (p : Settled α) (f : α → Doc → Completion Doc) (doc : Doc) :
    Settled Unit × Doc :=
  match p with
  | .fulfilled a =>
    match f a doc with
    | .normal doc1 => (.fulfilled (), doc1)
    | .throw e => (.rejected e, doc)
  | .rejected e => (.rejected e, doc)

/-- The promise `p.catch(error => console.error("Error:", error))`, with the console
after it has settled. -/
def Settled.catchLog (p : Settled Unit) (console : List String) : Settled Unit × List String :=
  match p with
  | .fulfilled u => (.fulfilled u, console)
  | .rejected e => (.fulfilled (), console ++ ["Error: " ++ e])

/-- The promise chain of the click listener (lines 33 to 58) once `fetch` has settled
with `r`: the final promise of the chain and the page after it. -/
def settleChain (c : Controller) (r : Settled Response) (st : State) : Settled Unit × State :=
  let p1 := r.thenAdopt (fun response => response.json)
  let p2 := p1.thenRun (responseCallback c) st.doc
  let p3 := p2.1.catchLog st.console
  (p3.1, { st with doc := p2.2, console := p3.2 })

/-- What can happen on the page after discovery. -/
inductive Event where
  | click (button : Handle)
  | settle (c : Controller) (r : Settled Response)
  deriving DecidableEq, Repr

/-- One event: a click runs every listener registered on the button, in registration
order; a settled `fetch` runs the promise chain of the listener that issued it. -/
def step (st : State) : Event → State
  | .click button =>
    (st.listeners.filter (fun l => l.1 = button)).foldl (fun s l => onClick l.2 button s) st
  | .settle c r => (settleChain c r st).2

/-- A sequence of events. -/
def run (st : State) (evs : List Event) : State :=
  evs.foldl step st

/-! ## What the user sees of one item -/

/-- The text of the count display of controller `c`. -/
def countText (doc : Doc) (c : Controller) : Option String :=
  (doc.elemAt c.voteCount).map (fun e => e.textContent)

/-- Whether the handle refers to an element carrying the class. -/
def hasClass (doc : Doc) (h : Handle) (tok : String) : Bool :=
  match doc.elemAt h with
  | some e => e.classList.contains tok
  | none => false

/-- Whether the upvote trigger of `c` is marked `upvoted`. -/
def upMarked (doc : Doc) (c : Controller) : Bool :=
  hasClass doc c.upvoteButton "upvoted"

/-- Whether the downvote trigger of `c` is marked `downvoted`. -/
def downMarked (doc : Doc) (c : Controller) : Bool :=
  hasClass doc c.downvoteButton "downvoted"

/-- Whether the three elements of `c` exist in the document. -/
def Controller.resolves (c : Controller) (doc : Doc) : Bool :=
  (doc.elemAt c.upvoteButton).isSome && (doc.elemAt c.downvoteButton).isSome
    && (doc.elemAt c.voteCount).isSome

/-- What the page shows of one item: the count text and the two marks. -/
structure View where
  count : Option String
  up : Bool
  down : Bool
  deriving DecidableEq, Repr

/-- The view of the item of controller `c`. -/
def viewOf (doc : Doc) (c : Controller) : View :=
  ⟨countText doc c, upMarked doc c, downMarked doc c⟩

/-- The view a response asks for: its count as text, and the mark its vote names. -/
def shownFor (data : VoteData) : View :=
  ⟨some data.new_vote_count.toTextContent, decide (data.user_vote = .str "upvote"),
    decide (data.user_vote = .str "downvote")⟩

/-- A `fetch` that fulfils with a response whose body parses to `data`. -/
def answered (data : Option VoteData) : Settled Response :=
  .fulfilled ⟨.fulfilled data⟩

/-- A `fetch` outcome that is not a successful answer: the request rejects, the body
cannot be parsed as JSON, the parsed body is `null`, or `success` is not truthy. -/
def failed : Settled Response → Bool
  | .rejected _ => true
  | .fulfilled ⟨.rejected _⟩ => true
  | .fulfilled ⟨.fulfilled none⟩ => true
  | .fulfilled ⟨.fulfilled (some data)⟩ => !data.success.truthy

/-- The data of a `fetch` outcome that the callback applies: the parsed body, when there
is one and its `success` is truthy. -/
def applied : Settled Response → Option VoteData
  | .fulfilled ⟨.fulfilled (some data)⟩ => if data.success.truthy then some data else none
  | _ => none

/-- Whether an event belongs to the item of controller `c`: a click on one of its two
triggers, or a settled request of its own listener. -/
def onItem (c : Controller) : Event → Bool
  | .click button => decide (button = c.upvoteButton) || decide (button = c.downvoteButton)
  | .settle c2 _ => decide (c2 = c)

/-- The data the callback applies at an event, if any. -/
def appliedBy : Event → Option VoteData
  | .settle _ r => applied r
  | .click _ => none

/-- The data of the most recent event of the sequence that the callback applied. -/
def lastApplied : List Event → Option VoteData
  | [] => none
  | e :: evs =>
    match lastApplied evs with
    | some data => some data
    | none => appliedBy e

/-- The value of an attribute read with `getAttribute`, as a JavaScript value. -/
def attrValue : Option String → JsVal
  | none => .null
  | some s => .str s

/-- The last confirmed vote of the item of controller `c` after a sequence of events on the
page: the `user_vote` of the most recently applied response of its own requests, or the saved
vote of the markup when none was applied. -/
def confirmedVote (c : Controller) (userVote : Option String) (evs : List Event) : JsVal :=
  match lastApplied (evs.filter (onItem c)) with
  | some data => data.user_vote
  | none => attrValue userVote

/-- The view discovery seeds for an item with saved vote `userVote`: the count text of the
markup, and the marks of the markup together with the mark of the saved vote. -/
def seededView (page : Doc) (userVote : Option String) (c : Controller) : View :=
  ⟨countText page c, upMarked page c || decide (userVote = some "upvote"),
    downMarked page c || decide (userVote = some "downvote")⟩

/-! ## Markup that the script never changes -/

/-- What the lookups read of an element: its `id`, its `data-vote-type`, and whether it
carries the class `vote-btn`. -/
def Elem.key (e : Elem) : Option String × Option String × Bool :=
  (e.id, e.voteType, e.classList.contains "vote-btn")

/-- What the lookups read of a block. -/
def Block.key (b : Block) : Bool × Option String × Option String
    × List (Option String × Option String × Bool) :=
  (b.isImageItem, b.imageId, b.userVote, b.inner.map Elem.key)

/-- What the lookups read of the document. -/
def Doc.key (d : Doc) : List (Bool × Option String × Option String
    × List (Option String × Option String × Bool)) :=
  d.map Block.key

/-- The listeners one `forEach` iteration registers for the image item at block `i`. -/
def listenersFor (page : Doc) (i : Nat) : List (Handle × Controller) :=
  match controllerFor page i with
  | some c => [(c.upvoteButton, c), (c.downvoteButton, c)]
  | none => []

/-! ## Sample pages -/

/-- A vote button as a template would render it. -/
def sampleBtn (voteType : String) : Elem :=
  ⟨none, ["vote-btn"], some voteType, ""⟩

/-- A count display. -/
def sampleCount (imageId count : String) : Elem :=
  ⟨some ("vote-count-" ++ imageId), [], none, count⟩

/-- A complete image item. -/
def sampleItem (imageId : String) (userVote : Option String) (count : String) : Block :=
  ⟨true, some imageId, userVote, [sampleBtn "upvote", sampleBtn "downvote", sampleCount imageId count]⟩

/-- A page with item 42 (no vote, count 10) and item 7 (upvoted, count 3). -/
def samplePage : Doc :=
  [sampleItem "42" none "10", sampleItem "7" (some "upvote") "3"]

/-- The controller discovery builds for item 42 of the sample page. -/
def controller42 : Controller :=
  ⟨some "42", (0, 0), (0, 1), (0, 2)⟩

/-- The controller discovery builds for item 7 of the sample page. -/
def controller7 : Controller :=
  ⟨some "7", (1, 0), (1, 1), (1, 2)⟩

/-- An image item whose count display is missing. -/
def itemWithoutCount (imageId : String) (userVote : Option String) : Block :=
  ⟨true, some imageId, userVote, [sampleBtn "upvote", sampleBtn "downvote"]⟩

/-- A page with an incomplete item 5 between item 42 and item 7. -/
def pageWithGap : Doc :=
  [sampleItem "42" (some "downvote") "10", itemWithoutCount "5" (some "upvote"),
    sampleItem "7" (some "upvote") "3"]

/-- The controller discovery builds for item 7 of the page with the incomplete item. -/
def controller7AfterGap : Controller :=
  ⟨some "7", (2, 0), (2, 1), (2, 2)⟩

/-- A page whose only item is rendered with the class `upvoted` on its upvote trigger
although its saved vote is `downvote`. -/
def staleMarkPage : Doc :=
  [⟨true, some "9", some "downvote",
    [⟨none, ["vote-btn", "upvoted"], some "upvote", ""⟩, sampleBtn "downvote",
      sampleCount "9" "4"]⟩]

/-- The controller discovery builds for item 9 of the page with the stale mark. -/
def controller9 : Controller :=
  ⟨some "9", (0, 0), (0, 1), (0, 2)⟩

/-- The answer `success: true, new_vote_count: 11, user_vote: "upvote"`. -/
def voteCast : VoteData :=
  ⟨.bool true, .num ⟨11, by decide⟩, .str "upvote"⟩

/-- The answer `success: true, new_vote_count: 10, user_vote: null`. -/
def voteCancelled : VoteData :=
  ⟨.bool true, .num ⟨10, by decide⟩, .null⟩

/-- The answer `success: true, user_vote: null` with no `new_vote_count`. -/
def voteWithoutCount : VoteData :=
  ⟨.bool true, .undefined, .null⟩

/-! ## Store lemmas -/

theorem getElem?_modifyAt {α : Type} (f : α → α) (n : Nat) (l : List α) (m : Nat) :
    (modifyAt f n l)[m]? = if m = n then l[m]?.map f else l[m]? := by
  induction l generalizing n m with
  | nil => cases n <;> simp [modifyAt]
  | cons a l ih =>
    cases n with
    | zero => cases m <;> simp [modifyAt]
    | succ n => cases m <;> simp [modifyAt, ih]

theorem elemAt_update (d : Doc) (h h2 : Handle) (f : Elem → Elem) :
    (d.update h f).elemAt h2 = if h2 = h then (d.elemAt h).map f else d.elemAt h2 := by
  obtain ⟨i, j⟩ := h
  obtain ⟨i2, j2⟩ := h2
  simp only [Doc.elemAt, Doc.update, getElem?_modifyAt, Prod.mk.injEq]
  by_cases hi : i2 = i
  · subst hi
    cases hb : d[i2]? with
    | none => simp
    | some b =>
      by_cases hj : j2 = j
      · subst hj; simp [getElem?_modifyAt]
      · simp [getElem?_modifyAt, hj]
  · simp [hi]

/-! ## Lookups -/

theorem firstIdx_some {α : Type} (p : α → Bool) (l : List α) (j : Nat)
    (h : firstIdx p l = some j) : ∃ a, l[j]? = some a ∧ p a = true := by
  induction l generalizing j with
  | nil => simp [firstIdx] at h
  | cons a l ih =>
    unfold firstIdx at h
    by_cases hp : p a = true
    · rw [if_pos hp] at h
      cases h
      exact ⟨a, by simp, hp⟩
    · rw [if_neg hp] at h
      cases hf : firstIdx p l with
      | none => simp [hf] at h
      | some k =>
        simp only [hf, Option.map_some', Option.some.injEq] at h
        subst h
        obtain ⟨b, hb, hpb⟩ := ih k hf
        exact ⟨b, by simpa using hb, hpb⟩

theorem firstIdx_congr {α β : Type} (g : α → β) (p : α → Bool) (q : β → Bool)
    (hpq : ∀ a, p a = q (g a)) (l l2 : List α) (h : l.map g = l2.map g) :
    firstIdx p l = firstIdx p l2 := by
  induction l generalizing l2 with
  | nil =>
    cases l2 with
    | nil => rfl
    | cons b l2 => simp at h
  | cons a l ih =>
    cases l2 with
    | nil => simp at h
    | cons b l2 =>
      simp only [List.map_cons, List.cons.injEq] at h
      simp only [firstIdx, hpq, h.1, ih l2 h.2]

theorem querySelectorVoteBtn_some (d : Doc) (i : Nat) (voteType : String) (h : Handle)
    (hq : querySelectorVoteBtn d i voteType = some h) :
    h.1 = i ∧ ∃ e, d.elemAt h = some e ∧ matchesVoteBtn voteType e = true := by
  unfold querySelectorVoteBtn at hq
  cases hb : d[i]? with
  | none => simp [hb] at hq
  | some image =>
    simp only [hb] at hq
    cases hf : firstIdx (matchesVoteBtn voteType) image.inner with
    | none => simp [hf] at hq
    | some j =>
      simp only [hf, Option.map_some', Option.some.injEq] at hq
      subst hq
      obtain ⟨e, he, hm⟩ := firstIdx_some _ _ _ hf
      exact ⟨rfl, e, by simp [Doc.elemAt, hb, he], hm⟩

theorem findById_some (id : String) (bs : List Block) (k : Nat) (h : Handle)
    (hf : findById id bs k = some h) :
    k ≤ h.1 ∧ ∃ b e, bs[h.1 - k]? = some b ∧ b.inner[h.2]? = some e ∧ e.id = some id := by
  induction bs generalizing k with
  | nil => simp [findById] at hf
  | cons b bs ih =>
    unfold findById at hf
    cases hj : firstIdx (fun e => e.id == some id) b.inner with
    | some j =>
      simp only [hj, Option.some.injEq] at hf
      subst hf
      obtain ⟨e, he, hid⟩ := firstIdx_some _ _ _ hj
      exact ⟨Nat.le_refl k, b, e, by simp, he, by simpa using hid⟩
    | none =>
      simp only [hj] at hf
      obtain ⟨hk, b2, e, hb2, he, hid⟩ := ih (k + 1) hf
      refine ⟨by omega, b2, e, ?_, he, hid⟩
      have : h.1 - k = (h.1 - (k + 1)) + 1 := by omega
      rw [this]
      simpa using hb2

theorem getElementById_some (d : Doc) (id : String) (h : Handle)
    (hf : getElementById d id = some h) : ∃ e, d.elemAt h = some e ∧ e.id = some id := by
  obtain ⟨_, b, e, hb, he, hid⟩ := findById_some id d 0 h hf
  exact ⟨e, by simp [Doc.elemAt, show d[h.1]? = some b by simpa using hb, he], hid⟩

/-- What a successful lookup guarantees about the captured variables. -/
theorem controllerFor_some (d : Doc) (i : Nat) (c : Controller)
    (h : controllerFor d i = some c) :
    (∃ image, d[i]? = some image ∧ c.imageId = image.imageId)
      ∧ c.upvoteButton.1 = i ∧ c.downvoteButton.1 = i
      ∧ (∃ e, d.elemAt c.upvoteButton = some e ∧ matchesVoteBtn "upvote" e = true)
      ∧ (∃ e, d.elemAt c.downvoteButton = some e ∧ matchesVoteBtn "downvote" e = true)
      ∧ (∃ e, d.elemAt c.voteCount = some e
          ∧ e.id = some ("vote-count-" ++ interpolate c.imageId)) := by
  unfold controllerFor at h
  cases hb : d[i]? with
  | none => simp [hb] at h
  | some image =>
    simp only [hb] at h
    cases hu : querySelectorVoteBtn d i "upvote" with
    | none => simp [hu] at h
    | some u =>
      cases hd : querySelectorVoteBtn d i "downvote" with
      | none => simp [hu, hd] at h
      | some dn =>
        cases hc : getElementById d ("vote-count-" ++ interpolate image.imageId) with
        | none => simp [hu, hd, hc] at h
        | some vc =>
          simp only [hu, hd, hc, Option.some.injEq] at h
          subst h
          obtain ⟨hu1, hu2⟩ := querySelectorVoteBtn_some _ _ _ _ hu
          obtain ⟨hd1, hd2⟩ := querySelectorVoteBtn_some _ _ _ _ hd
          exact ⟨⟨image, rfl, rfl⟩, hu1, hd1, hu2, hd2, getElementById_some _ _ _ hc⟩

theorem controllerFor_resolves (d : Doc) (i : Nat) (c : Controller)
    (h : controllerFor d i = some c) : c.resolves d = true := by
  obtain ⟨_, _, _, ⟨e1, h1, _⟩, ⟨e2, h2, _⟩, ⟨e3, h3, _⟩⟩ := controllerFor_some d i c h
  simp [Controller.resolves, h1, h2, h3]

theorem controllerFor_buttons_ne (d : Doc) (i : Nat) (c : Controller)
    (h : controllerFor d i = some c) : c.upvoteButton ≠ c.downvoteButton := by
  obtain ⟨_, _, _, ⟨e1, h1, m1⟩, ⟨e2, h2, m2⟩, _⟩ := controllerFor_some d i c h
  intro heq
  rw [heq, h2] at h1
  cases h1
  simp only [matchesVoteBtn, Bool.and_eq_true, beq_iff_eq] at m1 m2
  have := m1.2.symm.trans m2.2
  simp at this

/-! ## Class lists -/

theorem mem_classListAdd (t s : String) (l : List String) :
    s ∈ classListAdd t l ↔ s ∈ l ∨ s = t := by
  unfold classListAdd
  by_cases h : l.contains t = true
  · rw [if_pos h]
    constructor
    · intro hs; exact Or.inl hs
    · rintro (hs | hs)
      · exact hs
      · subst hs; simpa using h
  · rw [if_neg h]
    simp

theorem mem_classListRemove (t s : String) (l : List String) :
    s ∈ classListRemove t l ↔ s ∈ l ∧ s ≠ t := by
  unfold classListRemove
  simp [List.mem_filter]

/-! ## The view of an item under updates -/

theorem isSome_elemAt_update (d : Doc) (h h2 : Handle) (f : Elem → Elem) :
    ((d.update h f).elemAt h2).isSome = (d.elemAt h2).isSome := by
  rw [elemAt_update]
  by_cases hh : h2 = h
  · subst hh; simp
  · simp [hh]

theorem hasClass_update_of_keep (d : Doc) (h h2 : Handle) (f : Elem → Elem) (tok : String)
    (hf : ∀ e, tok ∈ (f e).classList ↔ tok ∈ e.classList) :
    hasClass (d.update h f) h2 tok = hasClass d h2 tok := by
  unfold hasClass
  rw [elemAt_update]
  by_cases hh : h2 = h
  · subst hh
    cases d.elemAt h2 <;> simp [hf]
  · simp [hh]

theorem hasClass_update_added (d : Doc) (h : Handle) (f : Elem → Elem) (tok : String)
    (hf : ∀ e, tok ∈ (f e).classList) :
    hasClass (d.update h f) h tok = (d.elemAt h).isSome := by
  unfold hasClass
  rw [elemAt_update]
  cases d.elemAt h <;> simp [hf]

theorem hasClass_update_removed (d : Doc) (h : Handle) (f : Elem → Elem) (tok : String)
    (hf : ∀ e, tok ∉ (f e).classList) :
    hasClass (d.update h f) h tok = false := by
  unfold hasClass
  rw [elemAt_update]
  cases d.elemAt h <;> simp [hf]

theorem countText_update_of_keep (d : Doc) (h : Handle) (c : Controller) (f : Elem → Elem)
    (hf : ∀ e, (f e).textContent = e.textContent) :
    countText (d.update h f) c = countText d c := by
  unfold countText
  rw [elemAt_update]
  by_cases hh : c.voteCount = h
  · subst hh
    cases d.elemAt c.voteCount <;> simp [hf]
  · simp [hh]

theorem countText_setTextContent (d : Doc) (c : Controller) (v : JsVal) :
    countText (d.update c.voteCount (Elem.setTextContent v)) c
      = (countText d c).map (fun _ => v.toTextContent) := by
  unfold countText
  rw [elemAt_update]
  cases d.elemAt c.voteCount <;> simp [Elem.setTextContent]

theorem countText_applySuccess (c : Controller) (data : VoteData) (doc : Doc) :
    countText (applySuccess c data doc) c
      = (countText doc c).map (fun _ => data.new_vote_count.toTextContent) := by
  unfold applySuccess
  simp only []
  split_ifs <;>
    simp [countText_update_of_keep, countText_setTextContent, Elem.addClass, Elem.removeClass]

theorem upMarked_applySuccess (c : Controller) (data : VoteData) (doc : Doc) :
    upMarked (applySuccess c data doc) c
      = ((doc.elemAt c.upvoteButton).isSome && decide (data.user_vote = .str "upvote")) := by
  unfold applySuccess upMarked
  simp only []
  split_ifs with h1 h2
  · rw [hasClass_update_added _ _ _ _ (by simp [Elem.addClass, mem_classListAdd])]
    simp [isSome_elemAt_update, h1]
  · rw [hasClass_update_of_keep _ _ _ _ _ (by simp [Elem.addClass, mem_classListAdd]),
      hasClass_update_of_keep _ _ _ _ _ (by simp [Elem.removeClass, mem_classListRemove]),
      hasClass_update_removed _ _ _ _ (by simp [Elem.removeClass, mem_classListRemove])]
    simp [h1]
  · rw [hasClass_update_of_keep _ _ _ _ _ (by simp [Elem.removeClass, mem_classListRemove]),
      hasClass_update_removed _ _ _ _ (by simp [Elem.removeClass, mem_classListRemove])]
    simp [h1]

theorem downMarked_applySuccess (c : Controller) (data : VoteData) (doc : Doc) :
    downMarked (applySuccess c data doc) c
      = ((doc.elemAt c.downvoteButton).isSome && decide (data.user_vote = .str "downvote")) := by
  unfold applySuccess downMarked
  simp only []
  split_ifs with h1 h2
  · rw [hasClass_update_of_keep _ _ _ _ _ (by simp [Elem.addClass, mem_classListAdd]),
      hasClass_update_removed _ _ _ _ (by simp [Elem.removeClass, mem_classListRemove])]
    simp [h1]
  · rw [hasClass_update_added _ _ _ _ (by simp [Elem.addClass, mem_classListAdd])]
    simp [isSome_elemAt_update, h2]
  · rw [hasClass_update_removed _ _ _ _ (by simp [Elem.removeClass, mem_classListRemove])]
    simp [h2]

theorem resolves_update (c : Controller) (d : Doc) (h : Handle) (f : Elem → Elem) :
    c.resolves (d.update h f) = c.resolves d := by
  simp [Controller.resolves, isSome_elemAt_update]

theorem resolves_applySuccess (c c2 : Controller) (data : VoteData) (doc : Doc) :
    c2.resolves (applySuccess c data doc) = c2.resolves doc := by
  unfold applySuccess
  simp only []
  split_ifs <;> simp [resolves_update]

theorem viewOf_applySuccess (c : Controller) (data : VoteData) (doc : Doc)
    (hres : c.resolves doc = true) : viewOf (applySuccess c data doc) c = shownFor data := by
  simp only [Controller.resolves, Bool.and_eq_true] at hres
  obtain ⟨⟨hu, hd⟩, hc⟩ := hres
  obtain ⟨e, he⟩ := Option.isSome_iff_exists.mp hc
  have hcount : countText doc c = some e.textContent := by
    simp [countText, he]
  simp [viewOf, shownFor, countText_applySuccess, upMarked_applySuccess,
    downMarked_applySuccess, hu, hd, hcount]

/-! ## The markup read by the lookups is never changed -/

theorem map_modifyAt_of_keep {α β : Type} (g : α → β) (f : α → α) (hf : ∀ a, g (f a) = g a)
    (n : Nat) (l : List α) : (modifyAt f n l).map g = l.map g := by
  induction l generalizing n with
  | nil => cases n <;> simp [modifyAt]
  | cons a l ih => cases n <;> simp [modifyAt, hf, ih]

theorem key_update (d : Doc) (h : Handle) (f : Elem → Elem) (hf : ∀ e, (f e).key = e.key) :
    (d.update h f).key = d.key := by
  unfold Doc.key Doc.update
  apply map_modifyAt_of_keep
  intro b
  simp [Block.key, map_modifyAt_of_keep Elem.key f hf]

theorem key_addClass_upvoted (e : Elem) : (Elem.addClass "upvoted" e).key = e.key := by
  simp [Elem.key, Elem.addClass, mem_classListAdd]

theorem key_addClass_downvoted (e : Elem) : (Elem.addClass "downvoted" e).key = e.key := by
  simp [Elem.key, Elem.addClass, mem_classListAdd]

theorem key_removeClass_upvoted (e : Elem) : (Elem.removeClass "upvoted" e).key = e.key := by
  simp [Elem.key, Elem.removeClass, mem_classListRemove]

theorem key_removeClass_downvoted (e : Elem) :
    (Elem.removeClass "downvoted" e).key = e.key := by
  simp [Elem.key, Elem.removeClass, mem_classListRemove]

theorem key_setTextContent (v : JsVal) (e : Elem) : (Elem.setTextContent v e).key = e.key := by
  simp [Elem.key, Elem.setTextContent]

theorem key_applySavedVote (userVote : Option String) (c : Controller) (doc : Doc) :
    (applySavedVote userVote c doc).key = doc.key := by
  unfold applySavedVote
  split_ifs <;> simp [key_update, key_addClass_upvoted, key_addClass_downvoted]

theorem key_applySuccess (c : Controller) (data : VoteData) (doc : Doc) :
    (applySuccess c data doc).key = doc.key := by
  unfold applySuccess
  simp only []
  split_ifs <;>
    simp [key_update, key_addClass_upvoted, key_addClass_downvoted, key_removeClass_upvoted,
      key_removeClass_downvoted, key_setTextContent]

theorem getElem?_of_key_eq (d d2 : Doc) (h : d.key = d2.key) (i : Nat) :
    d[i]?.map Block.key = d2[i]?.map Block.key := by
  have := congrArg (fun l => l[i]?) h
  simpa [Doc.key, List.getElem?_map] using this

theorem elemAt_of_key_eq (d d2 : Doc) (h : d.key = d2.key) (hd : Handle) :
    (d.elemAt hd).map Elem.key = (d2.elemAt hd).map Elem.key := by
  have hb := getElem?_of_key_eq d d2 h hd.1
  unfold Doc.elemAt
  cases h1 : d[hd.1]? with
  | none =>
    cases h2 : d2[hd.1]? with
    | none => rfl
    | some b2 => simp [h1, h2] at hb
  | some b =>
    cases h2 : d2[hd.1]? with
    | none => simp [h1, h2] at hb
    | some b2 =>
      simp only [h1, h2, Option.map_some', Option.some.injEq, Block.key, Prod.mk.injEq] at hb
      have := congrArg (fun l => l[hd.2]?) hb.2.2.2
      simpa [List.getElem?_map] using this

theorem querySelectorVoteBtn_of_key_eq (d d2 : Doc) (h : d.key = d2.key) (i : Nat)
    (voteType : String) : querySelectorVoteBtn d i voteType = querySelectorVoteBtn d2 i voteType := by
  have hb := getElem?_of_key_eq d d2 h i
  unfold querySelectorVoteBtn
  cases h1 : d[i]? with
  | none =>
    cases h2 : d2[i]? with
    | none => rfl
    | some b2 => simp [h1, h2] at hb
  | some b =>
    cases h2 : d2[i]? with
    | none => simp [h1, h2] at hb
    | some b2 =>
      simp only [h1, h2, Option.map_some', Option.some.injEq, Block.key, Prod.mk.injEq] at hb
      simp only []
      rw [firstIdx_congr Elem.key (matchesVoteBtn voteType)
        (fun k => k.2.2 && k.2.1 == some voteType) (fun a => by simp [matchesVoteBtn, Elem.key])
        b.inner b2.inner hb.2.2.2]

theorem findById_of_key_eq (id : String) (bs bs2 : List Block)
    (h : bs.map Block.key = bs2.map Block.key) (k : Nat) :
    findById id bs k = findById id bs2 k := by
  induction bs generalizing bs2 k with
  | nil =>
    cases bs2 with
    | nil => rfl
    | cons b bs2 => simp at h
  | cons b bs ih =>
    cases bs2 with
    | nil => simp at h
    | cons b2 bs2 =>
      simp only [List.map_cons, List.cons.injEq, Block.key, Prod.mk.injEq] at h
      unfold findById
      rw [firstIdx_congr Elem.key (fun e => e.id == some id) (fun k => k.1 == some id)
        (fun a => by simp [Elem.key]) b.inner b2.inner h.1.2.2.2, ih bs2 h.2]

theorem controllerFor_of_key_eq (d d2 : Doc) (h : d.key = d2.key) (i : Nat) :
    controllerFor d i = controllerFor d2 i := by
  have hb := getElem?_of_key_eq d d2 h i
  unfold controllerFor
  cases h1 : d[i]? with
  | none =>
    cases h2 : d2[i]? with
    | none => rfl
    | some b2 => simp [h1, h2] at hb
  | some b =>
    cases h2 : d2[i]? with
    | none => simp [h1, h2] at hb
    | some b2 =>
      simp only [h1, h2, Option.map_some', Option.some.injEq, Block.key, Prod.mk.injEq] at hb
      simp only [querySelectorVoteBtn_of_key_eq d d2 h, getElementById,
        findById_of_key_eq _ d d2 h, hb.2.1]

/-! ## Discovery -/

theorem controllerFor_listenersFor_of_key_eq (d d2 : Doc) (h : d.key = d2.key) (i : Nat) :
    listenersFor d i = listenersFor d2 i := by
  unfold listenersFor
  rw [controllerFor_of_key_eq d d2 h]

theorem getElem?_update_ne (d : Doc) (h : Handle) (f : Elem → Elem) (i : Nat) (hi : i ≠ h.1) :
    (d.update h f)[i]? = d[i]? := by
  simp [Doc.update, getElem?_modifyAt, hi]

theorem getElem?_update_same (d : Doc) (h : Handle) (f : Elem → Elem) :
    (d.update h f)[h.1]? = d[h.1]?.map (fun b => { b with inner := modifyAt f h.2 b.inner }) := by
  simp [Doc.update, getElem?_modifyAt]

theorem getElem?_applySavedVote_ne (userVote : Option String) (c : Controller) (d : Doc)
    (i j : Nat) (hu : c.upvoteButton.1 = i) (hd : c.downvoteButton.1 = i) (hj : j ≠ i) :
    (applySavedVote userVote c d)[j]? = d[j]? := by
  unfold applySavedVote
  split_ifs
  · exact getElem?_update_ne _ _ _ _ (by rw [hu]; exact hj)
  · exact getElem?_update_ne _ _ _ _ (by rw [hd]; exact hj)
  · rfl

theorem getElem?_applySavedVote_same (userVote : Option String) (c : Controller) (d d2 : Doc)
    (i : Nat) (hu : c.upvoteButton.1 = i) (hd : c.downvoteButton.1 = i)
    (h : d[i]? = d2[i]?) : (applySavedVote userVote c d)[i]? = (applySavedVote userVote c d2)[i]? := by
  unfold applySavedVote
  split_ifs
  · subst hu; rw [getElem?_update_same, getElem?_update_same, h]
  · subst hd; rw [getElem?_update_same, getElem?_update_same, h]
  · exact h

theorem discoverItem_key (i : Nat) (st : State) : (discoverItem i st).doc.key = st.doc.key := by
  unfold discoverItem
  split
  · simp [key_applySavedVote]
  · rfl

theorem discoverItem_sent (i : Nat) (st : State) :
    (discoverItem i st).sent = st.sent ∧ (discoverItem i st).console = st.console := by
  unfold discoverItem
  split <;> simp

theorem discoverItem_listeners (i : Nat) (st : State) :
    (discoverItem i st).listeners = st.listeners ++ listenersFor st.doc i := by
  unfold discoverItem listenersFor
  split
  · rename_i image c hb hc
    simp [hc]
  · rename_i hno
    cases hc : controllerFor st.doc i with
    | none => simp
    | some c =>
      obtain ⟨⟨image, hb, _⟩, _⟩ := controllerFor_some _ _ _ hc
      exact absurd hc (hno image c hb)

theorem discoverItem_block_ne (i j : Nat) (st : State) (hj : j ≠ i) :
    (discoverItem i st).doc[j]? = st.doc[j]? := by
  unfold discoverItem
  split
  · rename_i image c hb hc
    obtain ⟨_, hu, hd, _⟩ := controllerFor_some _ _ _ hc
    exact getElem?_applySavedVote_ne _ _ _ i j hu hd hj
  · rfl

theorem discoverItem_block_same (page : Doc) (i : Nat) (st : State)
    (hk : st.doc.key = page.key) (hb : st.doc[i]? = page[i]?) :
    (discoverItem i st).doc[i]? = (discoverItem i ⟨page, [], [], []⟩).doc[i]? := by
  unfold discoverItem
  simp only [controllerFor_of_key_eq _ _ hk, hb]
  split
  · rename_i image c hb2 hc
    obtain ⟨_, hu, hd, _⟩ := controllerFor_some _ _ _ hc
    exact getElem?_applySavedVote_same _ _ _ _ i hu hd hb
  · exact hb

theorem fold_discoverItem (page : Doc) (l : List Nat) (hl : l.Nodup) (st : State)
    (hk : st.doc.key = page.key) (hun : ∀ j ∈ l, st.doc[j]? = page[j]?) :
    (l.foldl (fun st i => discoverItem i st) st).doc.key = page.key
      ∧ (l.foldl (fun st i => discoverItem i st) st).listeners
          = st.listeners ++ l.flatMap (listenersFor page)
      ∧ (l.foldl (fun st i => discoverItem i st) st).sent = st.sent
      ∧ (l.foldl (fun st i => discoverItem i st) st).console = st.console
      ∧ ∀ j, (l.foldl (fun st i => discoverItem i st) st).doc[j]?
          = if j ∈ l then (discoverItem j ⟨page, [], [], []⟩).doc[j]? else st.doc[j]? := by
  induction l generalizing st with
  | nil => simp [hk]
  | cons i l ih =>
    have hnd := List.nodup_cons.mp hl
    have hk1 : (discoverItem i st).doc.key = page.key := (discoverItem_key i st).trans hk
    have hun1 : ∀ j ∈ l, (discoverItem i st).doc[j]? = page[j]? := by
      intro j hj
      have hne : j ≠ i := fun h => hnd.1 (h ▸ hj)
      rw [discoverItem_block_ne i j st hne]
      exact hun j (List.mem_cons_of_mem _ hj)
    obtain ⟨h1, h2, h3, h4, h5⟩ := ih hnd.2 (discoverItem i st) hk1 hun1
    simp only [List.foldl_cons]
    refine ⟨h1, ?_, ?_, ?_, ?_⟩
    · rw [h2, discoverItem_listeners, controllerFor_listenersFor_of_key_eq _ _ hk]
      simp
    · rw [h3, (discoverItem_sent i st).1]
    · rw [h4, (discoverItem_sent i st).2]
    · intro j
      rw [h5 j]
      by_cases hjl : j ∈ l
      · simp [hjl]
      · by_cases hji : j = i
        · subst hji
          simp only [hjl, if_false, List.mem_cons, true_or, if_true]
          exact discoverItem_block_same page j st hk (hun j (List.mem_cons_self _ _))
        · simp only [hjl, if_false, List.mem_cons, hji, or_self]
          exact discoverItem_block_ne i j st hji

/-! ## The promise chain -/

theorem onClick_fold_doc (ls : List (Handle × Controller)) (button : Handle) (st : State) :
    (ls.foldl (fun s l => onClick l.2 button s) st).doc = st.doc
      ∧ (ls.foldl (fun s l => onClick l.2 button s) st).listeners = st.listeners := by
  induction ls generalizing st with
  | nil => simp
  | cons l ls ih =>
    simp only [List.foldl_cons]
    rw [(ih _).1, (ih _).2]
    simp [onClick]

theorem step_click_doc (st : State) (button : Handle) :
    (step st (.click button)).doc = st.doc :=
  (onClick_fold_doc _ button st).1

theorem step_click_listeners (st : State) (button : Handle) :
    (step st (.click button)).listeners = st.listeners :=
  (onClick_fold_doc _ button st).2

theorem settleChain_success (c : Controller) (data : VoteData) (st : State)
    (hs : data.success.truthy = true) :
    settleChain c (answered (some data)) st
      = (.fulfilled (), { st with doc := applySuccess c data st.doc }) := by
  simp [settleChain, answered, Settled.thenAdopt, Settled.thenRun, responseCallback, hs,
    Settled.catchLog]

theorem step_settle_success (c : Controller) (data : VoteData) (st : State)
    (hs : data.success.truthy = true) :
    (step st (.settle c (answered (some data)))).doc = applySuccess c data st.doc := by
  simp [step, settleChain_success c data st hs]

theorem settleChain_failed (c : Controller) (r : Settled Response) (st : State)
    (hf : failed r = true) :
    (settleChain c r st).1 = .fulfilled () ∧ (settleChain c r st).2.doc = st.doc := by
  match r, hf with
  | .rejected e, _ => simp [settleChain, Settled.thenAdopt, Settled.thenRun, Settled.catchLog]
  | .fulfilled ⟨.rejected e⟩, _ =>
    simp [settleChain, Settled.thenAdopt, Settled.thenRun, Settled.catchLog]
  | .fulfilled ⟨.fulfilled none⟩, _ =>
    simp [settleChain, Settled.thenAdopt, Settled.thenRun, Settled.catchLog, responseCallback]
  | .fulfilled ⟨.fulfilled (some data)⟩, hf =>
    have hs : data.success.truthy = false := by simpa [failed] using hf
    simp [settleChain, Settled.thenAdopt, Settled.thenRun, Settled.catchLog, responseCallback,
      hs]

theorem step_settle_doc (c : Controller) (r : Settled Response) (st : State) :
    (step st (.settle c r)).doc
      = match applied r with
        | some data => applySuccess c data st.doc
        | none => st.doc := by
  match r with
  | .rejected e =>
    simp [step, settleChain, Settled.thenAdopt, Settled.thenRun, Settled.catchLog, applied]
  | .fulfilled ⟨.rejected e⟩ =>
    simp [step, settleChain, Settled.thenAdopt, Settled.thenRun, Settled.catchLog, applied]
  | .fulfilled ⟨.fulfilled none⟩ =>
    simp [step, settleChain, Settled.thenAdopt, Settled.thenRun, Settled.catchLog, applied,
      responseCallback]
  | .fulfilled ⟨.fulfilled (some data)⟩ =>
    by_cases hs : data.success.truthy = true
    · simp [step, settleChain, Settled.thenAdopt, Settled.thenRun, Settled.catchLog, applied,
        responseCallback, hs]
    · simp [step, settleChain, Settled.thenAdopt, Settled.thenRun, Settled.catchLog, applied,
        responseCallback, hs]

theorem step_settle_listeners (c : Controller) (r : Settled Response) (st : State) :
    (step st (.settle c r)).listeners = st.listeners
      ∧ (step st (.settle c r)).sent = st.sent := by
  simp [step, settleChain]

theorem step_listeners (st : State) (e : Event) : (step st e).listeners = st.listeners := by
  cases e with
  | click button => exact step_click_listeners st button
  | settle c r => exact (step_settle_listeners c r st).1

theorem step_key (st : State) (e : Event) : (step st e).doc.key = st.doc.key := by
  cases e with
  | click button => rw [step_click_doc]
  | settle c r =>
    rw [step_settle_doc]
    cases applied r with
    | none => rfl
    | some data => exact key_applySuccess c data st.doc

theorem run_listeners (st : State) (evs : List Event) :
    (run st evs).listeners = st.listeners := by
  induction evs generalizing st with
  | nil => rfl
  | cons e evs ih =>
    simp only [run, List.foldl_cons] at ih ⊢
    rw [ih, step_listeners]

theorem run_key (st : State) (evs : List Event) : (run st evs).doc.key = st.doc.key := by
  induction evs generalizing st with
  | nil => rfl
  | cons e evs ih =>
    simp only [run, List.foldl_cons] at ih ⊢
    rw [ih, step_key]

theorem resolves_of_key_eq (c : Controller) (d d2 : Doc) (h : d.key = d2.key) :
    c.resolves d = c.resolves d2 := by
  have h1 := congrArg Option.isSome (elemAt_of_key_eq d d2 h c.upvoteButton)
  have h2 := congrArg Option.isSome (elemAt_of_key_eq d d2 h c.downvoteButton)
  have h3 := congrArg Option.isSome (elemAt_of_key_eq d d2 h c.voteCount)
  simp only [Option.isSome_map'] at h1 h2 h3
  simp [Controller.resolves, h1, h2, h3]

/-! ## The discovered page -/

theorem mem_imageItems (page : Doc) (i : Nat) :
    i ∈ imageItems page ↔ ∃ b, page[i]? = some b ∧ b.isImageItem = true := by
  unfold imageItems
  rw [List.mem_filter, List.mem_range]
  constructor
  · rintro ⟨_, h⟩
    cases hb : page[i]? with
    | none => simp [hb] at h
    | some b => exact ⟨b, rfl, by simpa [hb] using h⟩
  · rintro ⟨b, hb, hi⟩
    refine ⟨?_, by simp [hb, hi]⟩
    by_contra hlt
    rw [List.getElem?_eq_none (by omega)] at hb
    cases hb

theorem nodup_imageItems (page : Doc) : (imageItems page).Nodup :=
  (List.nodup_range _).filter _

theorem discover_key (page : Doc) : (discover page).doc.key = page.key :=
  (fold_discoverItem page _ (nodup_imageItems page) ⟨page, [], [], []⟩ rfl (fun _ _ => rfl)).1

theorem discover_listeners (page : Doc) :
    (discover page).listeners = (imageItems page).flatMap (listenersFor page) := by
  have h := (fold_discoverItem page _ (nodup_imageItems page) ⟨page, [], [], []⟩ rfl
    (fun _ _ => rfl)).2.1
  simpa [discover] using h

theorem discover_block (page : Doc) (j : Nat) :
    (discover page).doc[j]?
      = if j ∈ imageItems page then (discoverItem j ⟨page, [], [], []⟩).doc[j]? else page[j]? :=
  (fold_discoverItem page _ (nodup_imageItems page) ⟨page, [], [], []⟩ rfl
    (fun _ _ => rfl)).2.2.2.2 j

theorem discover_block_skipped (page : Doc) (i : Nat) (hmiss : controllerFor page i = none) :
    (discover page).doc[i]? = page[i]? := by
  rw [discover_block]
  have : discoverItem i ⟨page, [], [], []⟩ = ⟨page, [], [], []⟩ := by
    unfold discoverItem
    simp [hmiss]
  rw [this]
  simp

theorem discover_block_complete (page : Doc) (i : Nat) (b : Block) (c : Controller)
    (hb : page[i]? = some b) (hi : b.isImageItem = true) (hc : controllerFor page i = some c) :
    (discover page).doc[i]? = (applySavedVote b.userVote c page)[i]? := by
  rw [discover_block, if_pos ((mem_imageItems page i).mpr ⟨b, hb, hi⟩)]
  unfold discoverItem
  simp [hb, hc]

theorem mem_listenersFor (page : Doc) (k : Nat) (x : Handle × Controller)
    (hx : x ∈ listenersFor page k) :
    controllerFor page k = some x.2 ∧ x.1.1 = k
      ∧ (x.1 = x.2.upvoteButton ∨ x.1 = x.2.downvoteButton) := by
  unfold listenersFor at hx
  cases hc : controllerFor page k with
  | none => simp [hc] at hx
  | some c =>
    obtain ⟨_, hu, hd, _⟩ := controllerFor_some _ _ _ hc
    simp only [hc, List.mem_cons, List.mem_singleton, List.not_mem_nil, or_false] at hx
    rcases hx with rfl | rfl
    · exact ⟨rfl, hu, Or.inl rfl⟩
    · exact ⟨rfl, hd, Or.inr rfl⟩

theorem filter_block_listeners (page : Doc) (j : Nat) (l : List Nat) (hl : l.Nodup) :
    (l.flatMap (listenersFor page)).filter (fun x => decide (x.1.1 = j))
      = if j ∈ l then listenersFor page j else [] := by
  induction l with
  | nil => simp
  | cons k l ih =>
    have hnd := List.nodup_cons.mp hl
    rw [List.flatMap_cons, List.filter_append, ih hnd.2]
    by_cases hk : k = j
    · subst hk
      have h1 : (listenersFor page k).filter (fun x => decide (x.1.1 = k))
          = listenersFor page k := by
        apply List.filter_eq_self.mpr
        intro x hx
        simpa using (mem_listenersFor page k x hx).2.1
      simp [h1, hnd.1]
    · have h1 : (listenersFor page k).filter (fun x => decide (x.1.1 = j)) = [] := by
        apply List.filter_eq_nil_iff.mpr
        intro x hx
        have := (mem_listenersFor page k x hx).2.1
        simp only [decide_eq_true_eq]
        omega
      have hjk : j ≠ k := fun h => hk h.symm
      simp [h1, hjk]

theorem mem_discover_listeners (page : Doc) (x : Handle × Controller)
    (hx : x ∈ (discover page).listeners) :
    ∃ k, controllerFor page k = some x.2 ∧ x.1.1 = k := by
  rw [discover_listeners, List.mem_flatMap] at hx
  obtain ⟨k, _, hk⟩ := hx
  exact ⟨k, (mem_listenersFor page k x hk).1, (mem_listenersFor page k x hk).2.1⟩

/-! ## The response callback (claims C1, C4, C10) -/

/-- C1: for every prior document in which the three elements of the item exist and every
parsed response with a truthy `success`, the response callback returns normally, and
afterwards the count display shows `new_vote_count`: the decimal numeral of the count when
it is a safe integer, the string itself when it is a string, and in general the text the
`textContent` setter stores for the value; the upvote trigger carries `upvoted` exactly when
`user_vote` is the string `upvote`, and the downvote trigger carries `downvoted` exactly
when `user_vote` is the string `downvote`; starting from any other prior document gives the
same two marks. -/
theorem success_callback_shows_response (c : Controller) (prior : Doc) (data : VoteData)
    (hres : c.resolves prior = true) (hs : data.success.truthy = true) :
    ∃ after, responseCallback c (some data) prior = .normal after
      ∧ countText after c = some data.new_vote_count.toTextContent
      ∧ (∀ n : SafeInt, data.new_vote_count = .num n →
          countText after c = some (toString n.val))
      ∧ (∀ r : String, data.new_vote_count = .inexact r → countText after c = some r)
      ∧ (∀ t : String, data.new_vote_count = .str t → countText after c = some t)
      ∧ (upMarked after c = true ↔ data.user_vote = .str "upvote")
      ∧ (downMarked after c = true ↔ data.user_vote = .str "downvote")
      ∧ ∀ other : Doc, c.resolves other = true →
          ∃ after2, responseCallback c (some data) other = .normal after2
            ∧ upMarked after2 c = upMarked after c
            ∧ downMarked after2 c = downMarked after c := by
  have hview := viewOf_applySuccess c data prior hres
  have hcount : countText (applySuccess c data prior) c
      = some data.new_vote_count.toTextContent := by
    simpa [viewOf, shownFor] using congrArg View.count hview
  refine ⟨applySuccess c data prior, by simp [responseCallback, hs], hcount, ?_, ?_, ?_, ?_,
    ?_, ?_⟩
  · intro n hn
    rw [hcount, hn]
    rfl
  · intro r hr
    rw [hcount, hr]
    rfl
  · intro t ht
    rw [hcount, ht]
    rfl
  · have h2 := congrArg View.up hview
    simp only [viewOf, shownFor] at h2
    simp [h2]
  · have h2 := congrArg View.down hview
    simp only [viewOf, shownFor] at h2
    simp [h2]
  · intro other ho
    refine ⟨applySuccess c data other, by simp [responseCallback, hs], ?_, ?_⟩
    · have h2 := viewOf_applySuccess c data other ho
      exact congrArg View.up (h2.trans hview.symm)
    · have h2 := viewOf_applySuccess c data other ho
      exact congrArg View.down (h2.trans hview.symm)

theorem success_callback_shows_response_witness :
    controller7.resolves (discover samplePage).doc = true ∧ voteCast.success.truthy = true
      ∧ ∃ after, responseCallback controller7 (some voteCast) (discover samplePage).doc
          = .normal after
        ∧ countText after controller7 = some "11"
        ∧ upMarked after controller7 = true
        ∧ downMarked after controller7 = false
        ∧ ∀ other : Doc, controller7.resolves other = true →
            ∃ after2, responseCallback controller7 (some voteCast) other = .normal after2
              ∧ upMarked after2 controller7 = upMarked after controller7
              ∧ downMarked after2 controller7 = downMarked after controller7 :=
  ⟨by decide, by decide,
    match success_callback_shows_response controller7 (discover samplePage).doc voteCast
        (by decide) (by decide) with
    | ⟨after, h1, _, h3, _, _, h6, h7, h8⟩ =>
      ⟨after, h1, h3 ⟨11, by decide⟩ rfl, h6.mpr rfl,
        Bool.eq_false_iff.mpr (fun h => absurd (h7.mp h) (by decide)), h8⟩⟩

/-- C4, as stated, fails: on the sample page item 7 shows count 3 with the upvote trigger
marked; the response `success: true, user_vote: null` without `new_vote_count` is applied
by the callback, after which the count display is empty and the upvote mark is gone. -/
theorem success_without_count_changes_item :
    voteWithoutCount.success.truthy = true ∧ voteWithoutCount.new_vote_count = .undefined
      ∧ responseCallback controller7 (some voteWithoutCount) (discover samplePage).doc
          = .normal (applySuccess controller7 voteWithoutCount (discover samplePage).doc)
      ∧ viewOf (discover samplePage).doc controller7 = ⟨some "3", true, false⟩
      ∧ viewOf (applySuccess controller7 voteWithoutCount (discover samplePage).doc) controller7
          = ⟨some "", false, false⟩ := by
  decide

/-- C4, amended: a response whose `success` is truthy and whose `new_vote_count` is absent
is applied like every other successful response: the callback returns normally, the count
display becomes the empty string, and the marks are recomputed from `user_vote`. -/
theorem success_without_count_is_applied (c : Controller) (prior : Doc)
    (success user_vote : JsVal) (hres : c.resolves prior = true)
    (hs : success.truthy = true) :
    ∃ after, responseCallback c (some ⟨success, .undefined, user_vote⟩) prior = .normal after
      ∧ countText after c = some ""
      ∧ (upMarked after c = true ↔ user_vote = .str "upvote")
      ∧ (downMarked after c = true ↔ user_vote = .str "downvote") := by
  have h := viewOf_applySuccess c ⟨success, .undefined, user_vote⟩ prior hres
  refine ⟨applySuccess c ⟨success, .undefined, user_vote⟩ prior,
    by simp [responseCallback, hs], ?_, ?_, ?_⟩
  · simpa [viewOf, shownFor, JsVal.toTextContent] using congrArg View.count h
  · have h2 := congrArg View.up h
    simp only [viewOf, shownFor] at h2
    simp [h2]
  · have h2 := congrArg View.down h
    simp only [viewOf, shownFor] at h2
    simp [h2]

theorem success_without_count_is_applied_witness :
    controller7.resolves (discover samplePage).doc = true ∧ (JsVal.bool true).truthy = true
      ∧ ∃ after, responseCallback controller7 (some ⟨.bool true, .undefined, .str "downvote"⟩)
          (discover samplePage).doc = .normal after
        ∧ countText after controller7 = some ""
        ∧ (upMarked after controller7 = true ↔ JsVal.str "downvote" = .str "upvote")
        ∧ (downMarked after controller7 = true ↔ JsVal.str "downvote" = .str "downvote") :=
  ⟨by decide, by decide,
    success_without_count_is_applied controller7 (discover samplePage).doc (.bool true)
      (.str "downvote") (by decide) (by decide)⟩

theorem elemAt_applySuccess_isSome (c : Controller) (data : VoteData) (doc : Doc) (h : Handle) :
    ((applySuccess c data doc).elemAt h).isSome = (doc.elemAt h).isSome := by
  unfold applySuccess
  simp only []
  split_ifs <;> simp [isSome_elemAt_update]

/-- C10: for every prior document and every parsed response with a truthy `success`,
running the response callback a second time with the same response returns normally and
leaves the count text and both marks as the first run left them. -/
theorem success_callback_idempotent (c : Controller) (prior : Doc) (data : VoteData)
    (hs : data.success.truthy = true) :
    ∃ once twice, responseCallback c (some data) prior = .normal once
      ∧ responseCallback c (some data) once = .normal twice
      ∧ countText twice c = countText once c
      ∧ upMarked twice c = upMarked once c
      ∧ downMarked twice c = downMarked once c := by
  refine ⟨applySuccess c data prior, applySuccess c data (applySuccess c data prior),
    by simp [responseCallback, hs], by simp [responseCallback, hs], ?_, ?_, ?_⟩
  · rw [countText_applySuccess, countText_applySuccess]
    cases countText prior c <;> simp
  · rw [upMarked_applySuccess, upMarked_applySuccess, elemAt_applySuccess_isSome]
  · rw [downMarked_applySuccess, downMarked_applySuccess, elemAt_applySuccess_isSome]

theorem success_callback_idempotent_witness :
    voteCast.success.truthy = true
      ∧ ∃ once twice, responseCallback controller42 (some voteCast) (discover samplePage).doc
          = .normal once
        ∧ responseCallback controller42 (some voteCast) once = .normal twice
        ∧ countText twice controller42 = countText once controller42
        ∧ upMarked twice controller42 = upMarked once controller42
        ∧ downMarked twice controller42 = downMarked once controller42 :=
  ⟨by decide,
    success_callback_idempotent controller42 (discover samplePage).doc voteCast (by decide)⟩

/-! ## Failures (claim C5) -/

/-- C5: when the vote call ends with a response whose `success` is not truthy (in
particular `false`), or with a rejected request, a body that cannot be parsed as JSON, or
a parsed body `null`, the promise chain of the click listener ends fulfilled (the `catch`
absorbs every rejection) and the document, hence the count text and both marks of every
item, is exactly as before. -/
theorem failure_leaves_item_unchanged (c : Controller) (r : Settled Response) (st : State)
    (hf : failed r = true) :
    (settleChain c r st).1 = .fulfilled ()
      ∧ (settleChain c r st).2.doc = st.doc
      ∧ (step st (.settle c r)).doc = st.doc
      ∧ viewOf (step st (.settle c r)).doc c = viewOf st.doc c := by
  have h := settleChain_failed c r st hf
  refine ⟨h.1, h.2, ?_, ?_⟩
  · simpa [step] using h.2
  · have h3 : (step st (.settle c r)).doc = st.doc := by simpa [step] using h.2
    rw [h3]

theorem failure_leaves_item_unchanged_witness :
    failed (answered (some ⟨.bool false, .num ⟨99, by decide⟩, .str "downvote"⟩)) = true
      ∧ (settleChain controller7 (answered (some ⟨.bool false, .num ⟨99, by decide⟩, .str "downvote"⟩))
          (discover samplePage)).1 = .fulfilled ()
      ∧ (settleChain controller7 (answered (some ⟨.bool false, .num ⟨99, by decide⟩, .str "downvote"⟩))
          (discover samplePage)).2.doc = (discover samplePage).doc
      ∧ (step (discover samplePage)
          (.settle controller7 (answered (some ⟨.bool false, .num ⟨99, by decide⟩, .str "downvote"⟩)))).doc
          = (discover samplePage).doc
      ∧ viewOf (step (discover samplePage)
          (.settle controller7 (answered (some ⟨.bool false, .num ⟨99, by decide⟩, .str "downvote"⟩)))).doc
          controller7 = viewOf (discover samplePage).doc controller7 :=
  ⟨by decide,
    failure_leaves_item_unchanged controller7
      (answered (some ⟨.bool false, .num ⟨99, by decide⟩, .str "downvote"⟩)) (discover samplePage)
      (by decide)⟩

/-! ## Responses applied out of order (claim C6) -/

/-- C6, as stated, fails: on the sample page the upvote trigger of item 42 is clicked
twice; click 1 is answered with count 11 and vote `upvote`, click 2 with count 10 and no
vote; the answer to click 2 is applied first and the answer to click 1 last.  The item
then shows the answer to click 1 (count 11, upvote marked), not the answer to click 2. -/
theorem out_of_order_shows_first_click :
    viewOf (run (discover samplePage)
        [.click controller42.upvoteButton, .click controller42.upvoteButton,
          .settle controller42 (answered (some voteCancelled)),
          .settle controller42 (answered (some voteCast))]).doc controller42
        = shownFor voteCast
      ∧ viewOf (run (discover samplePage)
        [.click controller42.upvoteButton, .click controller42.upvoteButton,
          .settle controller42 (answered (some voteCancelled)),
          .settle controller42 (answered (some voteCast))]).doc controller42
        ≠ shownFor voteCancelled
      ∧ shownFor voteCast = ⟨some "11", true, false⟩
      ∧ shownFor voteCancelled = ⟨some "10", false, false⟩ := by
  decide

/-- C6, amended: when two vote-change requests are issued for an item in order and their
successful answers are applied in the opposite order, the item finally shows the answer
that was applied last, which is the answer to click 1. -/
theorem out_of_order_last_applied_wins (c : Controller) (st : State) (b1 b2 : Handle)
    (answer1 answer2 : VoteData) (hres : c.resolves st.doc = true)
    (h1 : answer1.success.truthy = true) (h2 : answer2.success.truthy = true) :
    viewOf (run st [.click b1, .click b2, .settle c (answered (some answer2)),
        .settle c (answered (some answer1))]).doc c = shownFor answer1 := by
  simp only [run, List.foldl_cons, List.foldl_nil]
  rw [step_settle_success _ _ _ h1]
  apply viewOf_applySuccess
  rw [step_settle_success _ _ _ h2, resolves_applySuccess, step_click_doc, step_click_doc]
  exact hres

theorem out_of_order_last_applied_wins_witness :
    controller42.resolves (discover samplePage).doc = true
      ∧ voteCast.success.truthy = true ∧ voteCancelled.success.truthy = true
      ∧ viewOf (run (discover samplePage)
          [.click controller42.upvoteButton, .click controller42.upvoteButton,
            .settle controller42 (answered (some voteCancelled)),
            .settle controller42 (answered (some voteCast))]).doc controller42
          = shownFor voteCast :=
  ⟨by decide, by decide, by decide,
    out_of_order_last_applied_wins controller42 (discover samplePage)
      controller42.upvoteButton controller42.upvoteButton voteCast voteCancelled
      (by decide) (by decide) (by decide)⟩

/-! ## Discovery skips incomplete items only (claim C8) -/

/-- C8: on every page, an image item for which the upvote trigger, the downvote trigger or
the count display is not found is left exactly as the markup has it (no mark is added) and
no click listener is registered on any element inside it; and every image item of the same
page for which all three are found, at whatever position, has its saved vote style applied
and has exactly two listeners registered inside it, one on its upvote trigger and one on its
downvote trigger. -/
theorem incomplete_item_skipped (page : Doc) (i : Nat) (b : Block)
    (hb : page[i]? = some b) (hi : b.isImageItem = true)
    (hmiss : querySelectorVoteBtn page i "upvote" = none
      ∨ querySelectorVoteBtn page i "downvote" = none
      ∨ getElementById page ("vote-count-" ++ interpolate b.imageId) = none) :
    i ∈ imageItems page
      ∧ (discover page).doc[i]? = some b
      ∧ (∀ x ∈ (discover page).listeners, x.1.1 ≠ i)
      ∧ ∀ (j : Nat) (b2 : Block) (up down count : Handle),
          page[j]? = some b2 → b2.isImageItem = true →
          querySelectorVoteBtn page j "upvote" = some up →
          querySelectorVoteBtn page j "downvote" = some down →
          getElementById page ("vote-count-" ++ interpolate b2.imageId) = some count →
          (discover page).doc[j]?
              = (applySavedVote b2.userVote ⟨b2.imageId, up, down, count⟩ page)[j]?
            ∧ (discover page).listeners.filter (fun x => decide (x.1.1 = j))
              = [(up, ⟨b2.imageId, up, down, count⟩), (down, ⟨b2.imageId, up, down, count⟩)] := by
  have hnone : controllerFor page i = none := by
    unfold controllerFor
    simp only [hb]
    rcases hmiss with h | h | h
    · simp [h]
    · rw [h]
      cases querySelectorVoteBtn page i "upvote" <;> simp
    · rw [h]
      cases querySelectorVoteBtn page i "upvote" <;>
        cases querySelectorVoteBtn page i "downvote" <;> simp
  refine ⟨(mem_imageItems page i).mpr ⟨b, hb, hi⟩, ?_, ?_, ?_⟩
  · rw [discover_block_skipped page i hnone, hb]
  · intro x hx hxi
    obtain ⟨k, hk, hxk⟩ := mem_discover_listeners page x hx
    rw [← hxk, hxi, hnone] at hk
    cases hk
  · intro j b2 up down count hb2 hi2 hu hd hcnt
    have hc : controllerFor page j = some ⟨b2.imageId, up, down, count⟩ := by
      unfold controllerFor
      simp [hb2, hu, hd, hcnt]
    refine ⟨discover_block_complete page j b2 _ hb2 hi2 hc, ?_⟩
    rw [discover_listeners, filter_block_listeners page j _ (nodup_imageItems page),
      if_pos ((mem_imageItems page j).mpr ⟨b2, hb2, hi2⟩)]
    simp [listenersFor, hc]

theorem incomplete_item_skipped_witness :
    pageWithGap[1]? = some (itemWithoutCount "5" (some "upvote"))
      ∧ (itemWithoutCount "5" (some "upvote")).isImageItem = true
      ∧ 1 ∈ imageItems pageWithGap
      ∧ (discover pageWithGap).doc[1]? = some (itemWithoutCount "5" (some "upvote"))
      ∧ (∀ x ∈ (discover pageWithGap).listeners, x.1.1 ≠ 1)
      ∧ (discover pageWithGap).doc[2]?
          = (applySavedVote (some "upvote") controller7AfterGap pageWithGap)[2]?
      ∧ (discover pageWithGap).listeners.filter (fun x => decide (x.1.1 = 2))
          = [((2, 0), controller7AfterGap), ((2, 1), controller7AfterGap)] :=
  have h := incomplete_item_skipped pageWithGap 1 (itemWithoutCount "5" (some "upvote"))
    (by decide) (by decide) (Or.inr (Or.inr (by decide)))
  ⟨by decide, by decide, h.1, h.2.1, h.2.2.1,
    h.2.2.2 2 (sampleItem "7" (some "upvote") "3") (2, 0) (2, 1) (2, 2)
      (by decide) (by decide) (by decide) (by decide) (by decide)⟩

/-! ## The request of a click (claim C9) -/

theorem voteType_of_discovered (page : Doc) (doc : Doc) (hk : doc.key = page.key)
    (h : Handle) (voteType : String)
    (hm : ∃ e, page.elemAt h = some e ∧ matchesVoteBtn voteType e = true) :
    (doc.elemAt h).bind (fun e => e.voteType) = some voteType := by
  obtain ⟨e, he, hm⟩ := hm
  have h1 := elemAt_of_key_eq doc page hk h
  rw [he] at h1
  cases hd : doc.elemAt h with
  | none => simp [hd] at h1
  | some e2 =>
    simp only [hd, Option.map_some', Option.some.injEq, Elem.key, Prod.mk.injEq] at h1
    simp only [matchesVoteBtn, Bool.and_eq_true, beq_iff_eq] at hm
    simp [h1.2.1, hm.2]

theorem listeners_on_button (page : Doc) (i : Nat) (b : Block) (c : Controller)
    (hb : page[i]? = some b) (hi : b.isImageItem = true) (hc : controllerFor page i = some c) :
    (discover page).listeners.filter (fun x => decide (x.1 = c.upvoteButton))
        = [(c.upvoteButton, c)]
      ∧ (discover page).listeners.filter (fun x => decide (x.1 = c.downvoteButton))
        = [(c.downvoteButton, c)] := by
  obtain ⟨_, hu, hd, _⟩ := controllerFor_some _ _ _ hc
  have hne := controllerFor_buttons_ne _ _ _ hc
  have hblock : (discover page).listeners.filter (fun x => decide (x.1.1 = i))
      = [(c.upvoteButton, c), (c.downvoteButton, c)] := by
    rw [discover_listeners, filter_block_listeners page i _ (nodup_imageItems page),
      if_pos ((mem_imageItems page i).mpr ⟨b, hb, hi⟩)]
    simp [listenersFor, hc]
  constructor
  · have : (discover page).listeners.filter (fun x => decide (x.1 = c.upvoteButton))
        = ((discover page).listeners.filter (fun x => decide (x.1.1 = i))).filter
            (fun x => decide (x.1 = c.upvoteButton)) := by
      rw [List.filter_filter]
      apply List.filter_congr
      intro x _
      by_cases hx : x.1 = c.upvoteButton
      · simp [hx, hu]
      · simp [hx]
    rw [this, hblock]
    simp [List.filter_cons, hne.symm]
  · have : (discover page).listeners.filter (fun x => decide (x.1 = c.downvoteButton))
        = ((discover page).listeners.filter (fun x => decide (x.1.1 = i))).filter
            (fun x => decide (x.1 = c.downvoteButton)) := by
      rw [List.filter_filter]
      apply List.filter_congr
      intro x _
      by_cases hx : x.1 = c.downvoteButton
      · simp [hx, hd]
      · simp [hx]
    rw [this, hblock]
    simp [List.filter_cons, hne]

/-- C9: for every discovered image item and every state the page reaches after discovery
(whatever marks and count the item shows), activating its upvote trigger issues exactly one
request, `POST /vote/<data-image-id>/upvote` with the header `X-Requested-With:
XMLHttpRequest`, and activating its downvote trigger issues exactly one request,
`POST /vote/<data-image-id>/downvote`; the request is determined by the item identifier and
the trigger alone. -/
theorem click_issues_one_request (page : Doc) (i : Nat) (b : Block) (c : Controller)
    (evs : List Event) (hb : page[i]? = some b) (hi : b.isImageItem = true)
    (hc : controllerFor page i = some c) :
    (step (run (discover page) evs) (.click c.upvoteButton)).sent
        = (run (discover page) evs).sent
          ++ [⟨"/vote/" ++ interpolate b.imageId ++ "/upvote", "POST",
              [("Content-Type", "application/json"), ("X-Requested-With", "XMLHttpRequest")]⟩]
      ∧ (step (run (discover page) evs) (.click c.downvoteButton)).sent
        = (run (discover page) evs).sent
          ++ [⟨"/vote/" ++ interpolate b.imageId ++ "/downvote", "POST",
              [("Content-Type", "application/json"), ("X-Requested-With", "XMLHttpRequest")]⟩] := by
  obtain ⟨⟨image, himg, hid⟩, _, _, hup, hdown, _⟩ := controllerFor_some _ _ _ hc
  rw [hb] at himg
  cases himg
  have hk : (run (discover page) evs).doc.key = page.key :=
    (run_key _ evs).trans (discover_key page)
  have hl := listeners_on_button page i b c hb hi hc
  have hvu := voteType_of_discovered page _ hk c.upvoteButton "upvote" hup
  have hvd := voteType_of_discovered page _ hk c.downvoteButton "downvote" hdown
  have e1 : "/vote/" ++ interpolate b.imageId ++ "/" ++ "upvote"
      = "/vote/" ++ interpolate b.imageId ++ "/upvote" := by
    rw [String.append_assoc ("/vote/" ++ interpolate b.imageId) "/" "upvote"]
    rfl
  have e2 : "/vote/" ++ interpolate b.imageId ++ "/" ++ "downvote"
      = "/vote/" ++ interpolate b.imageId ++ "/downvote" := by
    rw [String.append_assoc ("/vote/" ++ interpolate b.imageId) "/" "downvote"]
    rfl
  constructor
  · simp only [step, run_listeners, hl.1, List.foldl_cons, List.foldl_nil, onClick, hvu,
      voteRequest, hid]
    rw [show interpolate (some "upvote") = "upvote" from rfl, e1]
  · simp only [step, run_listeners, hl.2, List.foldl_cons, List.foldl_nil, onClick, hvd,
      voteRequest, hid]
    rw [show interpolate (some "downvote") = "downvote" from rfl, e2]

theorem click_issues_one_request_witness :
    samplePage[1]? = some (sampleItem "7" (some "upvote") "3")
      ∧ (sampleItem "7" (some "upvote") "3").isImageItem = true
      ∧ controllerFor samplePage 1 = some controller7
      ∧ (step (run (discover samplePage) [.settle controller7 (answered (some voteCancelled))])
          (.click controller7.upvoteButton)).sent
          = (run (discover samplePage)
              [.settle controller7 (answered (some voteCancelled))]).sent
            ++ [⟨"/vote/" ++ interpolate (sampleItem "7" (some "upvote") "3").imageId
                ++ "/upvote", "POST",
              [("Content-Type", "application/json"), ("X-Requested-With", "XMLHttpRequest")]⟩]
      ∧ (step (run (discover samplePage) [.settle controller7 (answered (some voteCancelled))])
          (.click controller7.downvoteButton)).sent
          = (run (discover samplePage)
              [.settle controller7 (answered (some voteCancelled))]).sent
            ++ [⟨"/vote/" ++ interpolate (sampleItem "7" (some "upvote") "3").imageId
                ++ "/downvote", "POST",
              [("Content-Type", "application/json"), ("X-Requested-With", "XMLHttpRequest")]⟩] :=
  ⟨by decide, by decide, by decide,
    click_issues_one_request samplePage 1 (sampleItem "7" (some "upvote") "3") controller7
      [.settle controller7 (answered (some voteCancelled))] (by decide) (by decide)
      (by decide)⟩

/-! ## Items do not interfere (claim C7) -/

theorem hasClass_update_ne (d : Doc) (h h2 : Handle) (f : Elem → Elem) (tok : String)
    (hne : h2 ≠ h) : hasClass (d.update h f) h2 tok = hasClass d h2 tok := by
  unfold hasClass
  rw [elemAt_update, if_neg hne]

theorem hasClass_applySuccess_other (c : Controller) (data : VoteData) (doc : Doc)
    (h : Handle) (tok : String) (hu : h ≠ c.upvoteButton) (hd : h ≠ c.downvoteButton) :
    hasClass (applySuccess c data doc) h tok = hasClass doc h tok := by
  unfold applySuccess
  simp only []
  split_ifs <;>
    simp [hasClass_update_ne _ _ _ _ _ hu, hasClass_update_ne _ _ _ _ _ hd,
      hasClass_update_of_keep _ _ _ _ _ (fun e => by
        show tok ∈ (Elem.setTextContent data.new_vote_count e).classList ↔ tok ∈ e.classList
        simp [Elem.setTextContent])]

theorem countText_update_ne (d : Doc) (h : Handle) (c : Controller) (f : Elem → Elem)
    (hne : c.voteCount ≠ h) : countText (d.update h f) c = countText d c := by
  unfold countText
  rw [elemAt_update, if_neg hne]

theorem countText_applySuccess_other (c c2 : Controller) (data : VoteData) (doc : Doc)
    (hne : c2.voteCount ≠ c.voteCount) :
    countText (applySuccess c data doc) c2 = countText doc c2 := by
  unfold applySuccess
  simp only []
  split_ifs <;>
    simp [countText_update_ne _ _ _ _ hne, countText_update_of_keep, Elem.addClass,
      Elem.removeClass]

theorem count_id_injective (a b : String) (h : "vote-count-" ++ a = "vote-count-" ++ b) :
    a = b := by
  have h2 := congrArg String.data h
  simp only [String.data_append] at h2
  exact String.ext ((List.append_right_inj _).mp h2)

/-- C7: for every page and every two image items A and B whose lookups succeed and whose
`data-image-id` values differ, and in every state the page reaches after discovery, a click
on a button (in particular on either trigger of A) followed by any outcome of a request of
A (a successful answer, an unsuccessful one, or a failure) leaves the count text of B and
the marks on both triggers of B as they were. -/
theorem other_item_untouched (page : Doc) (iA iB : Nat) (cA cB : Controller) (a b : String)
    (evs : List Event) (button : Handle) (r : Settled Response)
    (hA : controllerFor page iA = some cA) (hB : controllerFor page iB = some cB)
    (ha : cA.imageId = some a) (hb : cB.imageId = some b) (hab : a ≠ b) :
    countText (run (run (discover page) evs) [.click button, .settle cA r]).doc cB
        = countText (run (discover page) evs).doc cB
      ∧ upMarked (run (run (discover page) evs) [.click button, .settle cA r]).doc cB
        = upMarked (run (discover page) evs).doc cB
      ∧ downMarked (run (run (discover page) evs) [.click button, .settle cA r]).doc cB
        = downMarked (run (discover page) evs).doc cB := by
  obtain ⟨_, hAu, hAd, _, _, ⟨eA, hAe, hAid⟩⟩ := controllerFor_some _ _ _ hA
  obtain ⟨_, hBu, hBd, _, _, ⟨eB, hBe, hBid⟩⟩ := controllerFor_some _ _ _ hB
  have hi : iA ≠ iB := by
    intro h
    subst h
    rw [hA] at hB
    cases hB
    rw [ha] at hb
    cases hb
    exact hab rfl
  have hcount : cB.voteCount ≠ cA.voteCount := by
    intro h
    rw [h, hAe] at hBe
    cases hBe
    rw [hAid, ha, hb] at hBid
    simp only [interpolate, Option.some.injEq] at hBid
    exact hab (count_id_injective a b hBid)
  have h1 : cB.upvoteButton ≠ cA.upvoteButton := fun h => hi (by rw [← hAu, ← hBu, h])
  have h2 : cB.upvoteButton ≠ cA.downvoteButton := fun h => hi (by rw [← hAd, ← hBu, h])
  have h3 : cB.downvoteButton ≠ cA.upvoteButton := fun h => hi (by rw [← hAu, ← hBd, h])
  have h4 : cB.downvoteButton ≠ cA.downvoteButton := fun h => hi (by rw [← hAd, ← hBd, h])
  have hdoc : (run (run (discover page) evs) [.click button, .settle cA r]).doc
      = match applied r with
        | some data => applySuccess cA data (run (discover page) evs).doc
        | none => (run (discover page) evs).doc := by
    simp only [run, List.foldl_cons, List.foldl_nil]
    rw [step_settle_doc, step_click_doc]
  rw [hdoc]
  cases applied r with
  | none => exact ⟨rfl, rfl, rfl⟩
  | some data =>
    exact ⟨countText_applySuccess_other cA cB data _ hcount,
      hasClass_applySuccess_other cA data _ _ _ h1 h2,
      hasClass_applySuccess_other cA data _ _ _ h3 h4⟩

theorem other_item_untouched_witness :
    controllerFor samplePage 0 = some controller42
      ∧ controllerFor samplePage 1 = some controller7
      ∧ controller42.imageId = some "42" ∧ controller7.imageId = some "7"
      ∧ countText (run (run (discover samplePage) [])
          [.click controller42.upvoteButton,
            .settle controller42 (answered (some voteCast))]).doc controller7
          = countText (run (discover samplePage) []).doc controller7
      ∧ upMarked (run (run (discover samplePage) [])
          [.click controller42.upvoteButton,
            .settle controller42 (answered (some voteCast))]).doc controller7
          = upMarked (run (discover samplePage) []).doc controller7
      ∧ downMarked (run (run (discover samplePage) [])
          [.click controller42.upvoteButton,
            .settle controller42 (answered (some voteCast))]).doc controller7
          = downMarked (run (discover samplePage) []).doc controller7 :=
  ⟨by decide, by decide, rfl, rfl,
    other_item_untouched samplePage 0 1 controller42 controller7 "42" "7" []
      controller42.upvoteButton (answered (some voteCast)) (by decide) (by decide) rfl rfl
      (by decide)⟩

/-! ## The view seeded by discovery -/

theorem elemAt_of_block_eq (d d2 : Doc) (h : Handle) (hb : d[h.1]? = d2[h.1]?) :
    d.elemAt h = d2.elemAt h := by
  unfold Doc.elemAt
  rw [hb]

theorem textContent_applySavedVote (userVote : Option String) (c : Controller) (d : Doc)
    (h : Handle) :
    ((applySavedVote userVote c d).elemAt h).map (fun e => e.textContent)
      = (d.elemAt h).map (fun e => e.textContent) := by
  unfold applySavedVote
  split_ifs
  · rw [elemAt_update]
    by_cases hh : h = c.upvoteButton
    · subst hh; cases d.elemAt c.upvoteButton <;> simp [Elem.addClass]
    · simp [hh]
  · rw [elemAt_update]
    by_cases hh : h = c.downvoteButton
    · subst hh; cases d.elemAt c.downvoteButton <;> simp [Elem.addClass]
    · simp [hh]
  · rfl

theorem textContent_discover (page : Doc) (h : Handle) :
    ((discover page).doc.elemAt h).map (fun e => e.textContent)
      = (page.elemAt h).map (fun e => e.textContent) := by
  by_cases hm : h.1 ∈ imageItems page
  · have hb := discover_block page h.1
    rw [if_pos hm] at hb
    rw [elemAt_of_block_eq _ _ h hb]
    unfold discoverItem
    split
    · exact textContent_applySavedVote _ _ _ _
    · rfl
  · have hb := discover_block page h.1
    rw [if_neg hm] at hb
    rw [elemAt_of_block_eq _ _ h hb]

theorem hasClass_of_block_eq (d d2 : Doc) (h : Handle) (tok : String)
    (hb : d[h.1]? = d2[h.1]?) : hasClass d h tok = hasClass d2 h tok := by
  unfold hasClass
  rw [elemAt_of_block_eq d d2 h hb]

theorem upMarked_applySavedVote (userVote : Option String) (c : Controller) (d : Doc)
    (hres : c.resolves d = true) :
    upMarked (applySavedVote userVote c d) c
      = (upMarked d c || decide (userVote = some "upvote")) := by
  simp only [Controller.resolves, Bool.and_eq_true] at hres
  unfold applySavedVote upMarked
  split_ifs with h1 h2
  · rw [hasClass_update_added _ _ _ _ (by simp [Elem.addClass, mem_classListAdd])]
    simp [hres.1.1, h1]
  · rw [hasClass_update_of_keep _ _ _ _ _ (by simp [Elem.addClass, mem_classListAdd])]
    simp [h1]
  · simp [h1]

theorem downMarked_applySavedVote (userVote : Option String) (c : Controller) (d : Doc)
    (hres : c.resolves d = true) :
    downMarked (applySavedVote userVote c d) c
      = (downMarked d c || decide (userVote = some "downvote")) := by
  simp only [Controller.resolves, Bool.and_eq_true] at hres
  unfold applySavedVote downMarked
  split_ifs with h1 h2
  · rw [hasClass_update_of_keep _ _ _ _ _ (by simp [Elem.addClass, mem_classListAdd])]
    have : userVote ≠ some "downvote" := by rw [h1]; decide
    simp [this]
  · rw [hasClass_update_added _ _ _ _ (by simp [Elem.addClass, mem_classListAdd])]
    simp [hres.1.2, h2]
  · simp [h2]

theorem viewOf_discover (page : Doc) (i : Nat) (b : Block) (c : Controller)
    (hb : page[i]? = some b) (hi : b.isImageItem = true) (hc : controllerFor page i = some c) :
    viewOf (discover page).doc c = seededView page b.userVote c := by
  obtain ⟨_, hu, hd, _⟩ := controllerFor_some _ _ _ hc
  have hres := controllerFor_resolves _ _ _ hc
  have hblock := discover_block_complete page i b c hb hi hc
  have h1 : countText (discover page).doc c = countText page c := textContent_discover page _
  have h2 : upMarked (discover page).doc c = upMarked (applySavedVote b.userVote c page) c :=
    hasClass_of_block_eq _ _ _ _ (by rw [hu]; exact hblock)
  have h3 : downMarked (discover page).doc c
      = downMarked (applySavedVote b.userVote c page) c :=
    hasClass_of_block_eq _ _ _ _ (by rw [hd]; exact hblock)
  simp only [viewOf, seededView, h1, h2, h3, upMarked_applySavedVote _ _ _ hres,
    downMarked_applySavedVote _ _ _ hres]

theorem discover_resolves (page : Doc) (i : Nat) (c : Controller)
    (hc : controllerFor page i = some c) : c.resolves (discover page).doc = true := by
  rw [resolves_of_key_eq c _ _ (discover_key page)]
  exact controllerFor_resolves _ _ _ hc

/-! ## Only applied responses change the display (claim C2) -/

theorem viewOf_step_onItem (c : Controller) (st : State) (e : Event)
    (hres : c.resolves st.doc = true) (he : onItem c e = true) :
    c.resolves (step st e).doc = true
      ∧ viewOf (step st e).doc c
        = match appliedBy e with
          | some data => shownFor data
          | none => viewOf st.doc c := by
  cases e with
  | click button =>
    rw [step_click_doc]
    exact ⟨hres, rfl⟩
  | settle c2 r =>
    have hc2 : c2 = c := by simpa [onItem] using he
    subst hc2
    rw [step_settle_doc]
    simp only [appliedBy]
    cases applied r with
    | none => exact ⟨hres, rfl⟩
    | some data =>
      exact ⟨by rw [resolves_applySuccess]; exact hres, viewOf_applySuccess c2 data _ hres⟩

theorem lastApplied_cons (e : Event) (evs : List Event) :
    lastApplied (e :: evs)
      = match lastApplied evs with
        | some data => some data
        | none => appliedBy e := rfl

theorem viewOf_run_onItem (c : Controller) (evs : List Event) (st : State)
    (hres : c.resolves st.doc = true) (hev : ∀ e ∈ evs, onItem c e = true) :
    c.resolves (run st evs).doc = true
      ∧ viewOf (run st evs).doc c
        = match lastApplied evs with
          | some data => shownFor data
          | none => viewOf st.doc c := by
  induction evs generalizing st with
  | nil => exact ⟨hres, rfl⟩
  | cons e evs ih =>
    have hstep := viewOf_step_onItem c st e hres (hev e (List.mem_cons_self _ _))
    have hrest := ih (step st e) hstep.1 (fun e2 h2 => hev e2 (List.mem_cons_of_mem _ h2))
    have hrun : run st (e :: evs) = run (step st e) evs := rfl
    rw [hrun]
    refine ⟨hrest.1, ?_⟩
    rw [hrest.2, lastApplied_cons]
    cases hl : lastApplied evs with
    | some data => rfl
    | none =>
      simp only []
      rw [hstep.2]

/-- C2: for every discovered image item and every finite sequence of events on it (clicks
on its two triggers and settled requests of its listener: successful answers, unsuccessful
answers and failures), the count text and the two marks shown after the sequence are those
of the most recently applied successful response (the count text is the decimal numeral of
its `new_vote_count` when that is a safe integer, and the string itself when it is a
string; each mark is present exactly when its `user_vote` names it), or, when no successful
response was applied, those seeded at discovery (the count text of the markup, and the marks
of the markup together with the mark of the saved vote); and a further click by itself
changes neither the count text nor the marks. -/
theorem display_follows_last_applied (page : Doc) (i : Nat) (b : Block) (c : Controller)
    (evs : List Event) (hb : page[i]? = some b) (hi : b.isImageItem = true)
    (hc : controllerFor page i = some c) (hev : ∀ e ∈ evs, onItem c e = true) :
    viewOf (run (discover page) evs).doc c
        = (match lastApplied evs with
          | some data => shownFor data
          | none => seededView page b.userVote c)
      ∧ (∀ data : VoteData, lastApplied evs = some data →
          (∀ n : SafeInt, data.new_vote_count = .num n →
            countText (run (discover page) evs).doc c = some (toString n.val))
          ∧ (∀ r : String, data.new_vote_count = .inexact r →
            countText (run (discover page) evs).doc c = some r)
          ∧ (∀ t : String, data.new_vote_count = .str t →
            countText (run (discover page) evs).doc c = some t)
          ∧ (upMarked (run (discover page) evs).doc c = true ↔ data.user_vote = .str "upvote")
          ∧ (downMarked (run (discover page) evs).doc c = true
              ↔ data.user_vote = .str "downvote"))
      ∧ (lastApplied evs = none →
          countText (run (discover page) evs).doc c = countText page c
          ∧ upMarked (run (discover page) evs).doc c
              = (upMarked page c || decide (b.userVote = some "upvote"))
          ∧ downMarked (run (discover page) evs).doc c
              = (downMarked page c || decide (b.userVote = some "downvote")))
      ∧ ∀ button : Handle,
          viewOf (step (run (discover page) evs) (.click button)).doc c
            = viewOf (run (discover page) evs).doc c := by
  have hview : viewOf (run (discover page) evs).doc c
      = (match lastApplied evs with
        | some data => shownFor data
        | none => seededView page b.userVote c) := by
    rw [(viewOf_run_onItem c evs (discover page) (discover_resolves page i c hc) hev).2,
      viewOf_discover page i b c hb hi hc]
  refine ⟨hview, ?_, ?_, ?_⟩
  · intro data hl
    rw [hl] at hview
    simp only [] at hview
    have h1 : countText (run (discover page) evs).doc c
        = some data.new_vote_count.toTextContent := congrArg View.count hview
    have h2 : upMarked (run (discover page) evs).doc c
        = decide (data.user_vote = .str "upvote") := congrArg View.up hview
    have h3 : downMarked (run (discover page) evs).doc c
        = decide (data.user_vote = .str "downvote") := congrArg View.down hview
    refine ⟨?_, ?_, ?_, ?_, ?_⟩
    · intro n hn
      rw [h1, hn]
      rfl
    · intro r hr
      rw [h1, hr]
      rfl
    · intro t ht
      rw [h1, ht]
      rfl
    · simp [h2]
    · simp [h3]
  · intro hl
    rw [hl] at hview
    simp only [] at hview
    exact ⟨congrArg View.count hview, congrArg View.up hview, congrArg View.down hview⟩
  · intro button
    rw [step_click_doc]

theorem display_follows_last_applied_witness :
    samplePage[1]? = some (sampleItem "7" (some "upvote") "3")
      ∧ (sampleItem "7" (some "upvote") "3").isImageItem = true
      ∧ controllerFor samplePage 1 = some controller7
      ∧ (∀ e ∈ [Event.click controller7.downvoteButton,
            .settle controller7 (answered (some voteCancelled)),
            .click controller7.upvoteButton, .settle controller7 (.rejected "offline")],
          onItem controller7 e = true)
      ∧ viewOf (discover samplePage).doc controller7 = ⟨some "3", true, false⟩
      ∧ viewOf (run (discover samplePage) [Event.click controller7.downvoteButton,
            .settle controller7 (answered (some voteCancelled)),
            .click controller7.upvoteButton, .settle controller7 (.rejected "offline")]).doc
          controller7 = ⟨some "10", false, false⟩
      ∧ countText (run (discover samplePage) [Event.click controller7.downvoteButton,
            .settle controller7 (answered (some voteCancelled)),
            .click controller7.upvoteButton, .settle controller7 (.rejected "offline")]).doc
          controller7 = some "10"
      ∧ ∀ button : Handle,
          viewOf (step (run (discover samplePage) [Event.click controller7.downvoteButton,
              .settle controller7 (answered (some voteCancelled)),
              .click controller7.upvoteButton, .settle controller7 (.rejected "offline")])
              (.click button)).doc controller7
            = viewOf (run (discover samplePage) [Event.click controller7.downvoteButton,
              .settle controller7 (answered (some voteCancelled)),
              .click controller7.upvoteButton, .settle controller7 (.rejected "offline")]).doc
              controller7 :=
  have h := display_follows_last_applied samplePage 1 (sampleItem "7" (some "upvote") "3")
    controller7
    [Event.click controller7.downvoteButton,
      .settle controller7 (answered (some voteCancelled)),
      .click controller7.upvoteButton, .settle controller7 (.rejected "offline")]
    (by decide) (by decide) (by decide) (by decide)
  ⟨by decide, by decide, by decide, by decide, by decide, h.1.trans (by decide),
    (h.2.1 voteCancelled (by decide)).1 ⟨10, by decide⟩ rfl, h.2.2.2⟩

/-! ## Marks are exclusive and follow the confirmed vote (claim C3) -/

/-- C3, as stated, fails: the only item of the page is rendered with the class `upvoted`
on its upvote trigger and the saved vote `downvote`; discovery adds `downvoted` to the
downvote trigger without removing the rendered mark, so right after discovery both triggers
are marked. -/
theorem stale_mark_survives_discovery :
    controllerFor staleMarkPage 0 = some controller9
      ∧ upMarked (run (discover staleMarkPage) []).doc controller9 = true
      ∧ downMarked (run (discover staleMarkPage) []).doc controller9 = true := by
  decide

theorem marks_step (c c2 : Controller) (r : Settled Response) (st : State)
    (h1 : c.upvoteButton ≠ c2.upvoteButton) (h2 : c.upvoteButton ≠ c2.downvoteButton)
    (h3 : c.downvoteButton ≠ c2.upvoteButton) (h4 : c.downvoteButton ≠ c2.downvoteButton) :
    upMarked (step st (.settle c2 r)).doc c = upMarked st.doc c
      ∧ downMarked (step st (.settle c2 r)).doc c = downMarked st.doc c := by
  rw [step_settle_doc]
  cases applied r with
  | none => exact ⟨rfl, rfl⟩
  | some data =>
    exact ⟨hasClass_applySuccess_other c2 data _ _ _ h1 h2,
      hasClass_applySuccess_other c2 data _ _ _ h3 h4⟩

theorem marks_run (page : Doc) (i : Nat) (c : Controller) (hc : controllerFor page i = some c)
    (evs : List Event) (st : State) (hres : c.resolves st.doc = true)
    (hev : ∀ c2 r, Event.settle c2 r ∈ evs → ∃ k, controllerFor page k = some c2) :
    (upMarked (run st evs).doc c, downMarked (run st evs).doc c)
      = match lastApplied (evs.filter (onItem c)) with
        | some data => ((shownFor data).up, (shownFor data).down)
        | none => (upMarked st.doc c, downMarked st.doc c) := by
  obtain ⟨_, hu, hd, _⟩ := controllerFor_some _ _ _ hc
  induction evs generalizing st with
  | nil => rfl
  | cons e evs ih =>
    have hrun : run st (e :: evs) = run (step st e) evs := rfl
    have hres1 : c.resolves (step st e).doc = true := by
      rw [resolves_of_key_eq c _ _ (step_key st e)]
      exact hres
    have hrest := ih (step st e) hres1
      (fun c2 r h => hev c2 r (List.mem_cons_of_mem _ h))
    rw [hrun, hrest]
    by_cases hon : onItem c e = true
    · rw [List.filter_cons_of_pos hon, lastApplied_cons]
      cases hl : lastApplied (evs.filter (onItem c)) with
      | some data => rfl
      | none =>
        simp only []
        have hv := (viewOf_step_onItem c st e hres hon).2
        cases ha : appliedBy e with
        | none =>
          rw [ha] at hv
          simp only [] at hv
          have hv1 := congrArg View.up hv
          have hv2 := congrArg View.down hv
          simp only [viewOf] at hv1 hv2
          rw [hv1, hv2]
        | some data =>
          rw [ha] at hv
          simp only [] at hv
          have hv1 := congrArg View.up hv
          have hv2 := congrArg View.down hv
          simp only [viewOf] at hv1 hv2
          rw [hv1, hv2]
    · rw [List.filter_cons_of_neg hon]
      have hsame : upMarked (step st e).doc c = upMarked st.doc c
          ∧ downMarked (step st e).doc c = downMarked st.doc c := by
        cases e with
        | click button =>
          rw [step_click_doc]
          exact ⟨rfl, rfl⟩
        | settle c2 r =>
          have hne : c2 ≠ c := by simpa [onItem] using hon
          obtain ⟨k, hk⟩ := hev c2 r (List.mem_cons_self _ _)
          obtain ⟨_, hu2, hd2, _⟩ := controllerFor_some _ _ _ hk
          have hki : k ≠ i := by
            intro h
            subst h
            rw [hc] at hk
            cases hk
            exact hne rfl
          exact marks_step c c2 r st
            (fun h => hki (by rw [← hu2, ← hu, h]))
            (fun h => hki (by rw [← hd2, ← hu, h]))
            (fun h => hki (by rw [← hu2, ← hd, h]))
            (fun h => hki (by rw [← hd2, ← hd, h]))
      rw [hsame.1, hsame.2]

/-- C3, amended: provided the markup of a discovered image item does not carry a mark that
contradicts its saved vote (its upvote trigger is rendered with `upvoted` only if
`data-user-vote` is `upvote`, its downvote trigger with `downvoted` only if it is
`downvote`), in every state reachable from discovery through clicks and settled requests of
the registered listeners the two triggers are not both marked, the upvote trigger is marked
exactly when the last confirmed vote of the item is `upvote`, and the downvote trigger
exactly when it is `downvote`. -/
theorem marks_exclusive_and_confirmed (page : Doc) (i : Nat) (b : Block) (c : Controller)
    (evs : List Event) (hb : page[i]? = some b) (hi : b.isImageItem = true)
    (hc : controllerFor page i = some c)
    (hup : upMarked page c = true → b.userVote = some "upvote")
    (hdown : downMarked page c = true → b.userVote = some "downvote")
    (hev : ∀ c2 r, Event.settle c2 r ∈ evs →
      c2 ∈ (discover page).listeners.map (fun x => x.2)) :
    ¬ (upMarked (run (discover page) evs).doc c = true
        ∧ downMarked (run (discover page) evs).doc c = true)
      ∧ (upMarked (run (discover page) evs).doc c = true
          ↔ confirmedVote c b.userVote evs = .str "upvote")
      ∧ (downMarked (run (discover page) evs).doc c = true
          ↔ confirmedVote c b.userVote evs = .str "downvote") := by
  have hev2 : ∀ c2 r, Event.settle c2 r ∈ evs → ∃ k, controllerFor page k = some c2 := by
    intro c2 r h
    obtain ⟨x, hx, hx2⟩ := List.mem_map.mp (hev c2 r h)
    obtain ⟨k, hk, _⟩ := mem_discover_listeners page x hx
    exact ⟨k, by rw [← hx2]; exact hk⟩
  have hrun := marks_run page i c hc evs (discover page) (discover_resolves page i c hc) hev2
  have hseed := viewOf_discover page i b c hb hi hc
  have hs1 : upMarked (discover page).doc c = decide (b.userVote = some "upvote") := by
    have := congrArg View.up hseed
    simp only [viewOf, seededView] at this
    rw [this]
    cases hm : upMarked page c with
    | false => simp
    | true => simp [hup hm]
  have hs2 : downMarked (discover page).doc c = decide (b.userVote = some "downvote") := by
    have := congrArg View.down hseed
    simp only [viewOf, seededView] at this
    rw [this]
    cases hm : downMarked page c with
    | false => simp
    | true => simp [hdown hm]
  have hboth : (upMarked (run (discover page) evs).doc c = true
        ↔ confirmedVote c b.userVote evs = .str "upvote")
      ∧ (downMarked (run (discover page) evs).doc c = true
        ↔ confirmedVote c b.userVote evs = .str "downvote") := by
    unfold confirmedVote
    cases hl : lastApplied (evs.filter (onItem c)) with
    | some data =>
      rw [hl] at hrun
      simp only [Prod.mk.injEq, shownFor] at hrun
      simp [hrun.1, hrun.2]
    | none =>
      rw [hl] at hrun
      simp only [Prod.mk.injEq] at hrun
      rw [hrun.1, hrun.2, hs1, hs2]
      cases b.userVote with
      | none => simp [attrValue]
      | some v => simp [attrValue]
  refine ⟨?_, hboth.1, hboth.2⟩
  rintro ⟨h1, h2⟩
  have e1 := hboth.1.mp h1
  have e2 := hboth.2.mp h2
  rw [e1] at e2
  simp at e2

theorem marks_exclusive_and_confirmed_witness :
    samplePage[1]? = some (sampleItem "7" (some "upvote") "3")
      ∧ (sampleItem "7" (some "upvote") "3").isImageItem = true
      ∧ controllerFor samplePage 1 = some controller7
      ∧ (upMarked samplePage controller7 = true
          → (sampleItem "7" (some "upvote") "3").userVote = some "upvote")
      ∧ (downMarked samplePage controller7 = true
          → (sampleItem "7" (some "upvote") "3").userVote = some "downvote")
      ∧ (∀ c2 r, Event.settle c2 r ∈ [Event.click controller42.upvoteButton,
            .settle controller42 (answered (some voteCast)),
            .settle controller7 (answered (some voteCancelled))] →
          c2 ∈ (discover samplePage).listeners.map (fun x => x.2))
      ∧ ¬ (upMarked (run (discover samplePage) [Event.click controller42.upvoteButton,
              .settle controller42 (answered (some voteCast)),
              .settle controller7 (answered (some voteCancelled))]).doc controller7 = true
          ∧ downMarked (run (discover samplePage) [Event.click controller42.upvoteButton,
              .settle controller42 (answered (some voteCast)),
              .settle controller7 (answered (some voteCancelled))]).doc controller7 = true)
      ∧ (upMarked (run (discover samplePage) [Event.click controller42.upvoteButton,
              .settle controller42 (answered (some voteCast)),
              .settle controller7 (answered (some voteCancelled))]).doc controller7 = true
          ↔ confirmedVote controller7 (sampleItem "7" (some "upvote") "3").userVote
              [Event.click controller42.upvoteButton,
                .settle controller42 (answered (some voteCast)),
                .settle controller7 (answered (some voteCancelled))] = .str "upvote")
      ∧ (downMarked (run (discover samplePage) [Event.click controller42.upvoteButton,
              .settle controller42 (answered (some voteCast)),
              .settle controller7 (answered (some voteCancelled))]).doc controller7 = true
          ↔ confirmedVote controller7 (sampleItem "7" (some "upvote") "3").userVote
              [Event.click controller42.upvoteButton,
                .settle controller42 (answered (some voteCast)),
                .settle controller7 (answered (some voteCancelled))] = .str "downvote") :=
  have hev : ∀ c2 r, Event.settle c2 r ∈ [Event.click controller42.upvoteButton,
        .settle controller42 (answered (some voteCast)),
        .settle controller7 (answered (some voteCancelled))] →
      c2 ∈ (discover samplePage).listeners.map (fun x => x.2) := by
    intro c2 r h
    simp only [List.mem_cons, List.mem_singleton, Event.settle.injEq, List.not_mem_nil,
      or_false, false_or] at h
    rcases h with h | h | h
    · cases h
    · rw [h.1]; decide
    · rw [h.1]; decide
  ⟨by decide, by decide, by decide, by decide, by decide, hev,
    marks_exclusive_and_confirmed samplePage 1 (sampleItem "7" (some "upvote") "3")
      controller7 [Event.click controller42.upvoteButton,
        .settle controller42 (answered (some voteCast)),
        .settle controller7 (answered (some voteCancelled))]
      (by decide) (by decide) (by decide) (by decide) (by decide) hev⟩

end VoteWidget
